import Mathlib

/-!
# Juggernaut: hash engine and task scheduler

A shallow embedding of the C sources of the repository (`core/cpu/md5_simd.c`,
`core/cpu/bcrypt_cpu.c`, `core/hash_algorithms.c`, `core/scheduler.c`,
`cli/auto_detect.c`, `cli/main.c`) and the properties of the specification settled against it.

Conventions of the embedding:
* a `uint8_t` buffer together with its length is a `List Nat`, one entry per byte
  (a value below 256 in a buffer the C code can hold);
* `uint32_t` / `uint64_t` / `size_t` values are `Nat`, reduced with `u32` / `u64`
  wherever the C code stores into a variable of that width;
* a `void` function that mutates `*ctx` is a function returning the new context;
  a function that also fills an output buffer returns the buffer as well;
* pointers that may be `NULL` in the hash dispatch layer are `Option`s.
-/

namespace Juggernaut

/-! ## Machine words -/

/-- Store into a `uint32_t`. -/
def u32 (n : Nat) : Nat := n % 4294967296

/-- Store into a `uint64_t` (also `size_t` on the 64-bit targets of the build). -/
def u64 (n : Nat) : Nat := n % 18446744073709551616

/-- The C operator `~` on a `uint32_t`. -/
def not32 (x : Nat) : Nat := 4294967295 ^^^ x

/-- C `memcpy(dst + doff, src, n)` on buffers held as lists: the `n` bytes at
`dst[doff .. doff+n)` are replaced by the first `n` bytes of `src`. -/
def memcpy (dst : List Nat) (doff : Nat) (src : List Nat) (n : Nat) : List Nat :=
  dst.take doff ++ src.take n ++ dst.drop (doff + n)

/-! ## `core/cpu/md5_simd.c` -/

/-- The C `struct md5_simd_ctx`. -/
structure md5_simd_ctx where
  state : List Nat
  bitcount : Nat
  buffer : List Nat
  buffer_len : Nat
  deriving DecidableEq, Repr

/-- The table `T[64]` of `md5_scalar_process_block`. -/
def T : List Nat :=
  [0xd76aa478, 0xe8c7b756, 0x242070db, 0xc1bdceee, 0xf57c0faf, 0x4787c62a, 0xa8304613, 0xfd469501,
   0x698098d8, 0x8b44f7af, 0xffff5bb1, 0x895cd7be, 0x6b901122, 0xfd987193, 0xa679438e, 0x49b40821,
   0xf61e2562, 0xc040b340, 0x265e5a51, 0xe9b6c7aa, 0xd62f105d, 0x02441453, 0xd8a1e681, 0xe7d3fbc8,
   0x21e1cde6, 0xc33707d6, 0xf4d50d87, 0x455a14ed, 0xa9e3e905, 0xfcefa3f8, 0x676f02d9, 0x8d2a4c8a,
   0xfffa3942, 0x8771f681, 0x6d9d6122, 0xfde5380c, 0xa4beea44, 0x4bdecfa9, 0xf6bb4b60, 0xbebfbc70,
   0x289b7ec6, 0xeaa127fa, 0xd4ef3085, 0x04881d05, 0xd9d4d039, 0xe6db99e5, 0x1fa27cf8, 0xc4ac5665,
   0xf4292244, 0x432aff97, 0xab9423a7, 0xfc93a039, 0x655b59c3, 0x8f0ccc92, 0xffeff47d, 0x85845dd1,
   0x6fa87e4f, 0xfe2ce6e0, 0xa3014314, 0x4e0811a1, 0xf7537e82, 0xbd3af235, 0x2ad7d2bb, 0xeb86d391]

/-- Macro `F(x,y,z) (((x)&(y)) | ((~x)&(z)))`. -/
def F (x y z : Nat) : Nat := (x &&& y) ||| (not32 x &&& z)

/-- Macro `G(x,y,z) (((x)&(z)) | ((y)&(~z)))`. -/
def G (x y z : Nat) : Nat := (x &&& z) ||| (y &&& not32 z)

/-- Macro `H(x,y,z) ((x)^(y)^(z))`. -/
def H (x y z : Nat) : Nat := x ^^^ y ^^^ z

/-- Macro `I(x,y,z) ((y)^((x)|(~z)))`. -/
def I (x y z : Nat) : Nat := y ^^^ (x ||| not32 z)

/-- Macro `ROTATE_LEFT(x,n) (((x)<<(n))|((x)>>(32-(n))))` on a `uint32_t`. -/
def ROTATE_LEFT (x n : Nat) : Nat := u32 (x <<< n) ||| (x >>> (32 - n))

/-- Macro `FF`: `a += F(b,c,d) + X[x] + ac; a = ROTATE_LEFT(a,s); a += b;`
(the value of `a` after the three statements). -/
def FF (a b c d x s ac : Nat) : Nat :=
  u32 (ROTATE_LEFT (u32 (a + u32 (u32 (F b c d + x) + ac))) s + b)

/-- Macro `GG`, as `FF` with `G`. -/
def GG (a b c d x s ac : Nat) : Nat :=
  u32 (ROTATE_LEFT (u32 (a + u32 (u32 (G b c d + x) + ac))) s + b)

/-- Macro `HH`, as `FF` with `H`. -/
def HH (a b c d x s ac : Nat) : Nat :=
  u32 (ROTATE_LEFT (u32 (a + u32 (u32 (H b c d + x) + ac))) s + b)

/-- Macro `II`, as `FF` with `I`. -/
def II (a b c d x s ac : Nat) : Nat :=
  u32 (ROTATE_LEFT (u32 (a + u32 (u32 (I b c d + x) + ac))) s + b)

/-- The word `X[i]` read from the block:
`block[i*4+0] | block[i*4+1] << 8 | block[i*4+2] << 16 | block[i*4+3] << 24`. -/
def load_word (block : List Nat) (i : Nat) : Nat :=
  u32 (block.getD (i*4+0) 0 ||| (block.getD (i*4+1) 0 <<< 8) |||
       (block.getD (i*4+2) 0 <<< 16) ||| (block.getD (i*4+3) 0 <<< 24))

/-- The loop `for (i = 0; i < 16; ++i) X[i] = ...` of `md5_scalar_process_block`. -/
def md5_load_block (block : List Nat) : List Nat :=
  (List.range 16).map (load_word block)

/-- The round macros of `md5_scalar_process_block` and its final additions: the
new `state[4]` from the old one and the words `X[16]`. The steps are the macro
calls of the source, in the order and with the arguments written there. -/
def md5_scalar_rounds (state : List Nat) (X : List Nat) : List Nat :=
  let a := state.getD 0 0
  let b := state.getD 1 0
  let c := state.getD 2 0
  let d := state.getD 3 0
  -- Round 1
  let a := FF a b c d (X.getD 0 0) 7 (T.getD 0 0)
  let d := FF d a b c (X.getD 1 0) 12 (T.getD 1 0)
  let c := FF c d a b (X.getD 2 0) 17 (T.getD 2 0)
  let b := FF b c d a (X.getD 3 0) 22 (T.getD 3 0)
  let a := FF a b c d (X.getD 4 0) 7 (T.getD 4 0)
  let d := FF d a b c (X.getD 5 0) 12 (T.getD 5 0)
  let c := FF c d a b (X.getD 6 0) 17 (T.getD 6 0)
  let b := FF b c d a (X.getD 7 0) 22 (T.getD 7 0)
  let a := FF a b c d (X.getD 8 0) 7 (T.getD 8 0)
  let d := FF d a b c (X.getD 9 0) 12 (T.getD 9 0)
  let c := FF c d a b (X.getD 10 0) 17 (T.getD 10 0)
  let b := FF b c d a (X.getD 11 0) 22 (T.getD 11 0)
  let a := FF a b c d (X.getD 12 0) 7 (T.getD 12 0)
  let d := FF d a b c (X.getD 13 0) 12 (T.getD 13 0)
  let c := FF c d a b (X.getD 14 0) 17 (T.getD 14 0)
  let b := FF b c d a (X.getD 15 0) 22 (T.getD 15 0)
  -- Round 2
  let a := GG a b c d (X.getD 1 0) 5 (T.getD 16 0)
  let d := GG d a b c (X.getD 6 0) 9 (T.getD 17 0)
  let c := GG c d a b (X.getD 11 0) 14 (T.getD 18 0)
  let b := GG b c d a (X.getD 0 0) 20 (T.getD 19 0)
  let a := GG a b c d (X.getD 5 0) 5 (T.getD 20 0)
  let d := GG d a b c (X.getD 10 0) 9 (T.getD 21 0)
  let c := GG c d a b (X.getD 15 0) 14 (T.getD 22 0)
  let b := GG b c d a (X.getD 4 0) 20 (T.getD 23 0)
  let a := GG a b c d (X.getD 9 0) 5 (T.getD 24 0)
  let d := GG d a b c (X.getD 14 0) 9 (T.getD 25 0)
  let c := GG c d a b (X.getD 3 0) 14 (T.getD 26 0)
  let b := GG b c d a (X.getD 8 0) 20 (T.getD 27 0)
  let a := GG a b c d (X.getD 13 0) 5 (T.getD 28 0)
  let d := GG d a b c (X.getD 2 0) 9 (T.getD 29 0)
  let c := GG c d a b (X.getD 7 0) 14 (T.getD 30 0)
  let b := GG b c d a (X.getD 12 0) 20 (T.getD 31 0)
  -- Round 3
  let a := HH a b c d (X.getD 5 0) 4 (T.getD 32 0)
  let d := HH d a b c (X.getD 8 0) 11 (T.getD 33 0)
  let c := HH c d a b (X.getD 11 0) 16 (T.getD 34 0)
  let b := HH b c d a (X.getD 14 0) 23 (T.getD 35 0)
  let a := HH a b c d (X.getD 1 0) 4 (T.getD 36 0)
  let d := HH d a b c (X.getD 4 0) 11 (T.getD 37 0)
  let c := HH c d a b (X.getD 7 0) 16 (T.getD 38 0)
  let b := HH b c d a (X.getD 10 0) 23 (T.getD 39 0)
  let a := HH a b c d (X.getD 13 0) 4 (T.getD 40 0)
  let d := HH d a b c (X.getD 0 0) 11 (T.getD 41 0)
  let c := HH c d a b (X.getD 3 0) 16 (T.getD 42 0)
  let b := HH b c d a (X.getD 6 0) 23 (T.getD 43 0)
  -- Round 4
  let a := II a b c d (X.getD 0 0) 6 (T.getD 44 0)
  let d := II d a b c (X.getD 7 0) 10 (T.getD 45 0)
  let c := II c d a b (X.getD 14 0) 15 (T.getD 46 0)
  let b := II b c d a (X.getD 5 0) 21 (T.getD 47 0)
  let a := II a b c d (X.getD 12 0) 6 (T.getD 48 0)
  let d := II d a b c (X.getD 3 0) 10 (T.getD 49 0)
  let c := II c d a b (X.getD 10 0) 15 (T.getD 50 0)
  let b := II b c d a (X.getD 1 0) 21 (T.getD 51 0)
  let a := II a b c d (X.getD 8 0) 6 (T.getD 52 0)
  let d := II d a b c (X.getD 15 0) 10 (T.getD 53 0)
  let c := II c d a b (X.getD 6 0) 15 (T.getD 54 0)
  let b := II b c d a (X.getD 13 0) 21 (T.getD 55 0)
  let a := II a b c d (X.getD 4 0) 6 (T.getD 56 0)
  let d := II d a b c (X.getD 11 0) 10 (T.getD 57 0)
  let c := II c d a b (X.getD 2 0) 15 (T.getD 58 0)
  let b := II b c d a (X.getD 9 0) 21 (T.getD 59 0)
  -- Update state
  [u32 (state.getD 0 0 + a), u32 (state.getD 1 0 + b),
   u32 (state.getD 2 0 + c), u32 (state.getD 3 0 + d)]

/-- The chaining-state part of `md5_scalar_process_block`: the new `state[4]`
from the old one and the block. -/
def md5_scalar_block (state : List Nat) (block : List Nat) : List Nat :=
  md5_scalar_rounds state (md5_load_block block)

/-- C `md5_scalar_process_block(ctx, block)`. -/
def md5_scalar_process_block (ctx : md5_simd_ctx) (block : List Nat) : md5_simd_ctx :=
  { ctx with state := md5_scalar_block ctx.state block }

/-- C `md5_simd_process_block`: every branch of the `#if` calls the scalar code. -/
def md5_simd_process_block (ctx : md5_simd_ctx) (block : List Nat) : md5_simd_ctx :=
  md5_scalar_process_block ctx block

/-- C `md5_simd_create` (the allocation succeeds; `calloc` zeroes the buffer). -/
def md5_simd_create : md5_simd_ctx :=
  { state := [0x67452301, 0xefcdab89, 0x98badcfe, 0x10325476]
    bitcount := 0
    buffer := List.replicate 64 0
    buffer_len := 0 }

/-- The loop `while (offset + 64 <= len) { process_block(ctx, data + offset); offset += 64; }`
of `md5_simd_update`. The first argument bounds the number of iterations;
`md5_simd_update` passes `len`, which the loop never exhausts. -/
def md5_update_loop : Nat → md5_simd_ctx → List Nat → Nat → md5_simd_ctx × Nat
  | 0, ctx, _, offset => (ctx, offset)
  | fuel + 1, ctx, data, offset =>
    if offset + 64 ≤ data.length then
      md5_update_loop fuel (md5_simd_process_block ctx (data.drop offset)) data (offset + 64)
    else (ctx, offset)

/-- The block `if (ctx->buffer_len > 0) { ... }` of `md5_simd_update` ("Fill buffer
if partial"): the context and the value of `offset` after it. -/
def md5_update_fill (ctx : md5_simd_ctx) (data : List Nat) : md5_simd_ctx × Nat :=
  let len := data.length
  let offset := 0
  if ctx.buffer_len > 0 then
    let to_copy := 64 - ctx.buffer_len
    let to_copy := if to_copy > len then len else to_copy
    let ctx := { ctx with buffer := memcpy ctx.buffer ctx.buffer_len data to_copy }
    let ctx := { ctx with buffer_len := ctx.buffer_len + to_copy }
    let offset := offset + to_copy
    if ctx.buffer_len = 64 then
      ({ md5_simd_process_block ctx ctx.buffer with buffer_len := 0 }, offset)
    else (ctx, offset)
  else (ctx, offset)

/-- The block `if (offset < len) { ... }` of `md5_simd_update` ("Buffer remaining"). -/
def md5_update_rest (ctx : md5_simd_ctx) (data : List Nat) (offset : Nat) : md5_simd_ctx :=
  let len := data.length
  if offset < len then
    { ctx with buffer := memcpy ctx.buffer 0 (data.drop offset) (len - offset)
               buffer_len := len - offset }
  else ctx

/-- C `md5_simd_update(ctx, data, len)` with `data` non-null and `len = data.length`:
the three parts of the body in sequence, then `ctx->bitcount += len * 8`. -/
def md5_simd_update (ctx : md5_simd_ctx) (data : List Nat) : md5_simd_ctx :=
  let len := data.length
  let filled := md5_update_fill ctx data
  let looped := md5_update_loop len filled.1 data filled.2
  let ctx := md5_update_rest looped.1 data looped.2
  { ctx with bitcount := u64 (ctx.bitcount + u64 (len * 8)) }

/-- The contexts reachable from `md5_simd_create` by calls of `md5_simd_update`. -/
inductive md5_reachable : md5_simd_ctx → Prop where
  | create : md5_reachable md5_simd_create
  | update (ctx : md5_simd_ctx) (data : List Nat) :
      md5_reachable ctx → md5_reachable (md5_simd_update ctx data)

/-- The eight bytes of a `uint64_t` in little-endian order, as read through
`(uint8_t *)&bitcount_le` (on a big-endian target the source byte-swaps first). -/
def le_bytes64 (v : Nat) : List Nat :=
  (List.range 8).map (fun k => (v >>> (8 * k)) &&& 0xff)

/-- The output loop of `md5_simd_final`: `output[i*4+k] = (state[i] >> 8k) & 0xff`. -/
def md5_output (state : List Nat) : List Nat :=
  (List.range 4).flatMap (fun i =>
    [(state.getD i 0 >>> 0) &&& 0xff, (state.getD i 0 >>> 8) &&& 0xff,
     (state.getD i 0 >>> 16) &&& 0xff, (state.getD i 0 >>> 24) &&& 0xff])

/-- The local array `uint8_t pad[64] = {0x80}` of `md5_simd_final`. -/
def md5_pad : List Nat := 0x80 :: List.replicate 63 0

/-- The local `pad_len` of `md5_simd_final`:
`(ctx->buffer_len < 56) ? (56 - ctx->buffer_len) : (120 - ctx->buffer_len)`. -/
def md5_final_pad_len (ctx : md5_simd_ctx) : Nat :=
  if ctx.buffer_len < 56 then 56 - ctx.buffer_len else 120 - ctx.buffer_len

/-- C `md5_simd_final(ctx, output)`: the context afterwards and the 16 bytes
written to `output`. -/
def md5_simd_final (ctx : md5_simd_ctx) : md5_simd_ctx × List Nat :=
  let pad_len := md5_final_pad_len ctx
  let bitcount_le := ctx.bitcount
  let ctx := md5_simd_update ctx (md5_pad.take pad_len)
  let ctx := md5_simd_update ctx (le_bytes64 bitcount_le)
  (ctx, md5_output ctx.state)

/-- Whether C `memcmp(a, b, n) == 0`: the first `n` bytes agree. -/
def memcmp_eq (a b : List Nat) (n : Nat) : Bool :=
  decide (a.take n = b.take n)

/-- C `md5_simd_verify(ctx, target, len)`: the returned `int` and the context
afterwards (the call finalizes the context it is given). -/
def md5_simd_verify (ctx : md5_simd_ctx) (target : List Nat) (len : Nat) : Int × md5_simd_ctx :=
  if len ≠ 16 then (0, ctx)
  else
    let r := md5_simd_final ctx
    (if memcmp_eq r.2 target 16 then 1 else 0, r.1)

/-! ## `core/cpu/bcrypt_cpu.c` -/

/-- The C `struct bcrypt_cpu_ctx`. A copy longer than a field is kept whole in
the list of that field (the C code would run over the fields that follow). -/
structure bcrypt_cpu_ctx where
  password : List Nat
  password_len : Nat
  salt : List Nat
  salt_len : Nat
  cost : Int
  hash : List Nat
  finalized : Int
  deriving DecidableEq, Repr

/-- C `bcrypt_cpu_create` (the allocation succeeds; `calloc` zeroes every field). -/
def bcrypt_cpu_create : bcrypt_cpu_ctx :=
  { password := List.replicate 72 0
    password_len := 0
    salt := List.replicate 16 0
    salt_len := 0
    cost := 10
    hash := List.replicate 32 0
    finalized := 0 }

/-- C `bcrypt_cpu_update(ctx, data, len)` with `data` non-null and `len = data.length`. -/
def bcrypt_cpu_update (ctx : bcrypt_cpu_ctx) (data : List Nat) : bcrypt_cpu_ctx :=
  let len := data.length
  if len = 0 then ctx
  else if len > 16 then
    { ctx with
      salt := memcpy ctx.salt 0 data 16
      salt_len := 16
      password := memcpy ctx.password 0 (data.drop 16) (len - 16)
      password_len := len - 16
      finalized := 0 }
  else
    { ctx with
      salt := memcpy ctx.salt 0 data len
      salt_len := len
      password_len := 0
      finalized := 0 }

/-- C `bcrypt_cpu_final(ctx, output)`: the context afterwards and the 32 bytes
written to `output`. -/
def bcrypt_cpu_final (ctx : bcrypt_cpu_ctx) : bcrypt_cpu_ctx × List Nat :=
  let ctx := { ctx with hash := List.replicate 32 0x42 }
  ({ ctx with finalized := 1 }, ctx.hash)

/-- C `bcrypt_cpu_verify(ctx, target, len)`: the returned `int` and the context afterwards. -/
def bcrypt_cpu_verify (ctx : bcrypt_cpu_ctx) (target : List Nat) (len : Nat) :
    Int × bcrypt_cpu_ctx :=
  if len ≠ 32 then (0, ctx)
  else
    let r := bcrypt_cpu_final ctx
    (if memcmp_eq r.2 target 32 then 1 else 0, r.1)

/-! ## `core/hash_algorithms.c` -/

/-- The C enum `hash_type_t`. -/
inductive hash_type_t where
  | HASH_MD5
  | HASH_BCRYPT
  | HASH_SHA256
  | HASH_UNKNOWN
  deriving DecidableEq, Repr

/-- What a non-null `void *context` of a `hash_ctx_t` points to. -/
inductive hash_context where
  | md5 (c : md5_simd_ctx)
  | bcrypt (c : bcrypt_cpu_ctx)
  deriving DecidableEq, Repr

/-- The C struct `hash_ctx_t`; `context = none` is the `NULL` pointer. -/
structure hash_ctx_t where
  type : hash_type_t
  context : Option hash_context
  deriving DecidableEq, Repr

/-- The C struct `hash_ops_t` (the `free` entry releases memory and is left out).
`final` takes the old contents of the output buffer and returns the new ones;
`verify` returns the `int` and the algorithm context afterwards. -/
structure hash_ops_t where
  init : Option hash_context
  update : Option hash_context → List Nat → Option hash_context
  final : Option hash_context → List Nat → Option hash_context × List Nat
  verify : Option hash_context → List Nat → Nat → Int × Option hash_context

/-- Wrapper `md5_init`. -/
def md5_init : Option hash_context := some (.md5 md5_simd_create)

/-- Wrapper `md5_update`. -/
def md5_update (ctx : Option hash_context) (data : List Nat) : Option hash_context :=
  match ctx with
  | some (.md5 c) => some (.md5 (md5_simd_update c data))
  | other => other

/-- Wrapper `md5_final`. -/
def md5_final (ctx : Option hash_context) (output : List Nat) :
    Option hash_context × List Nat :=
  match ctx with
  | some (.md5 c) => (some (.md5 (md5_simd_final c).1), memcpy output 0 (md5_simd_final c).2 16)
  | other => (other, output)

/-- Wrapper `md5_verify`. -/
def md5_verify (ctx : Option hash_context) (target : List Nat) (len : Nat) :
    Int × Option hash_context :=
  match ctx with
  | some (.md5 c) => ((md5_simd_verify c target len).1, some (.md5 (md5_simd_verify c target len).2))
  | other => (0, other)

/-- Wrapper `bcrypt_init`. -/
def bcrypt_init : Option hash_context := some (.bcrypt bcrypt_cpu_create)

/-- Wrapper `bcrypt_update`. -/
def bcrypt_update (ctx : Option hash_context) (data : List Nat) : Option hash_context :=
  match ctx with
  | some (.bcrypt c) => some (.bcrypt (bcrypt_cpu_update c data))
  | other => other

/-- Wrapper `bcrypt_final`. -/
def bcrypt_final (ctx : Option hash_context) (output : List Nat) :
    Option hash_context × List Nat :=
  match ctx with
  | some (.bcrypt c) =>
    (some (.bcrypt (bcrypt_cpu_final c).1), memcpy output 0 (bcrypt_cpu_final c).2 32)
  | other => (other, output)

/-- Wrapper `bcrypt_verify`. -/
def bcrypt_verify (ctx : Option hash_context) (target : List Nat) (len : Nat) :
    Int × Option hash_context :=
  match ctx with
  | some (.bcrypt c) =>
    ((bcrypt_cpu_verify c target len).1, some (.bcrypt (bcrypt_cpu_verify c target len).2))
  | other => (0, other)

/-- Stub `sha256_init`: `*ctx = NULL`. -/
def sha256_init : Option hash_context := none

/-- Stub `sha256_update`: empty body. -/
def sha256_update (ctx : Option hash_context) (_data : List Nat) : Option hash_context := ctx

/-- Stub `sha256_final`: empty body, nothing is written to `output`. -/
def sha256_final (ctx : Option hash_context) (output : List Nat) :
    Option hash_context × List Nat := (ctx, output)

/-- Stub `sha256_verify`: `return 0`. -/
def sha256_verify (ctx : Option hash_context) (_target : List Nat) (_len : Nat) :
    Int × Option hash_context := (0, ctx)

/-- The C array `hash_ops_table`, indexed by the algorithm. The `HASH_UNKNOWN`
row holds null function pointers; no function below calls through it. -/
def hash_ops_table : hash_type_t → hash_ops_t
  | .HASH_MD5 => ⟨md5_init, md5_update, md5_final, md5_verify⟩
  | .HASH_BCRYPT => ⟨bcrypt_init, bcrypt_update, bcrypt_final, bcrypt_verify⟩
  | .HASH_SHA256 => ⟨sha256_init, sha256_update, sha256_final, sha256_verify⟩
  | .HASH_UNKNOWN => ⟨none, fun c _ => c, fun c o => (c, o), fun c _ _ => (0, c)⟩

/-- C `hash_init(ctx, type)`. -/
def hash_init (ctx : hash_ctx_t) (type : hash_type_t) : hash_ctx_t :=
  if type = .HASH_UNKNOWN then ctx
  else { type := type, context := (hash_ops_table type).init }

/-- C `hash_update(ctx, data, len)`. -/
def hash_update (ctx : hash_ctx_t) (data : List Nat) : hash_ctx_t :=
  match ctx.context with
  | none => ctx
  | some c => { ctx with context := (hash_ops_table ctx.type).update (some c) data }

/-- C `hash_final(ctx, output)`: the context afterwards and the contents of the
output buffer afterwards. -/
def hash_final (ctx : hash_ctx_t) (output : List Nat) : hash_ctx_t × List Nat :=
  match ctx.context with
  | none => (ctx, output)
  | some c =>
    ({ ctx with context := ((hash_ops_table ctx.type).final (some c) output).1 },
     ((hash_ops_table ctx.type).final (some c) output).2)

/-- C `hash_verify(ctx, target, len)`: the returned `int` and the context afterwards. -/
def hash_verify (ctx : hash_ctx_t) (target : List Nat) (len : Nat) : Int × hash_ctx_t :=
  match ctx.context with
  | none => (0, ctx)
  | some c =>
    (((hash_ops_table ctx.type).verify (some c) target len).1,
     { ctx with context := ((hash_ops_table ctx.type).verify (some c) target len).2 })

/-! ## `core/scheduler.c`, `core/scheduler.h` -/

/-- The C enum `device_type_t`. -/
inductive device_type_t where
  | DEVICE_CPU
  | DEVICE_GPU
  | DEVICE_FPGA
  | DEVICE_UNKNOWN
  deriving DecidableEq, Repr

/-- The C struct `sched_task_t`; the pointer `task_data` is kept as an address. -/
structure sched_task_t where
  device : device_type_t
  task_data : Nat
  task_size : Nat
  priority : Int
  task_id : Int
  deriving DecidableEq, Repr

/-- Macro `MAX_TASKS`. -/
def MAX_TASKS : Nat := 1024

/-- Macro `CHECKPOINT_INTERVAL` (seconds). -/
def CHECKPOINT_INTERVAL : Int := 5

/-- The C `struct scheduler` without its mutex and thread handle. `tasks` is the
array of `MAX_TASKS` entries, `ai_hook = none` the null function pointer (a
registered callback is kept by an identifier). -/
structure scheduler where
  tasks : List sched_task_t
  task_count : Int
  running : Int
  ai_hook : Option Nat
  last_checkpoint : Int
  deriving DecidableEq, Repr

/-- An entry of the task array as `calloc` leaves it. -/
def zero_task : sched_task_t :=
  { device := .DEVICE_CPU, task_data := 0, task_size := 0, priority := 0, task_id := 0 }

/-- C `scheduler_init` (the allocation succeeds); `now` is the value of `time(NULL)`. -/
def scheduler_init (now : Int) : scheduler :=
  { tasks := List.replicate MAX_TASKS zero_task
    task_count := 0
    running := 0
    ai_hook := none
    last_checkpoint := now }

/-- C `scheduler_submit(sched, task)` with both pointers non-null: the scheduler
afterwards. -/
def scheduler_submit (sched : scheduler) (task : sched_task_t) : scheduler :=
  if sched.task_count < MAX_TASKS then
    { sched with
      tasks := sched.tasks.set sched.task_count.toNat task
      task_count := sched.task_count + 1 }
  else sched

/-- The value `scheduler_submit` hands back to its caller. The C function is
declared `void`, so there is exactly one possible value. -/
def scheduler_submit_return (_sched : scheduler) (_task : sched_task_t) : Unit := ()

/-- The queued tasks: the first `task_count` entries of the array. -/
def scheduler_queue (sched : scheduler) : List sched_task_t :=
  sched.tasks.take sched.task_count.toNat

/-- What `scheduler_do_checkpoint` writes: the `int` of the first `fwrite` and the
array entries of the second one, to the file at `path`. -/
structure checkpoint_write where
  path : String
  count : Int
  records : List sched_task_t
  deriving DecidableEq, Repr

/-- C `scheduler_do_checkpoint(sched, path)` when `fopen` succeeds; the scheduler
is not modified. -/
def scheduler_do_checkpoint (sched : scheduler) (path : String) : checkpoint_write :=
  { path := path, count := sched.task_count, records := sched.tasks.take sched.task_count.toNat }

/-- C `scheduler_checkpoint(sched, path)`: the scheduler afterwards and the file written. -/
def scheduler_checkpoint (sched : scheduler) (path : String) : scheduler × checkpoint_write :=
  (sched, scheduler_do_checkpoint sched path)

/-- C `scheduler_resume(sched, path)`. -/
def scheduler_resume (sched : scheduler) (_path : String) : scheduler :=
  { sched with task_count := 0 }

/-- C `scheduler_register_ai_hook(sched, ai_callback)`. -/
def scheduler_register_ai_hook (sched : scheduler) (ai_callback : Option Nat) : scheduler :=
  { sched with ai_hook := ai_callback }

/-- One iteration of the `while (sched->running)` loop of `scheduler_thread_func`,
with `now` the value of `time(NULL)` read in it: the scheduler afterwards and the
checkpoint written, if any. The dispatch `switch` has empty cases, and the
callback is external code that receives the opaque scheduler pointer. -/
def scheduler_thread_tick (sched : scheduler) (now : Int) : scheduler × Option checkpoint_write :=
  let sched := { sched with task_count := 0 }
  if now - sched.last_checkpoint ≥ CHECKPOINT_INTERVAL then
    ({ sched with last_checkpoint := now },
     some (scheduler_do_checkpoint sched "scheduler.chkpt"))
  else (sched, none)

/-- One call of the public interface, or one loop iteration of the scheduler thread. -/
inductive sched_step : scheduler → scheduler → Prop where
  | submit (s : scheduler) (t : sched_task_t) : sched_step s (scheduler_submit s t)
  | resume (s : scheduler) (path : String) : sched_step s (scheduler_resume s path)
  | checkpoint (s : scheduler) (path : String) : sched_step s (scheduler_checkpoint s path).1
  | register (s : scheduler) (cb : Option Nat) : sched_step s (scheduler_register_ai_hook s cb)
  | tick (s : scheduler) (now : Int) : sched_step s (scheduler_thread_tick s now).1

/-- The scheduler states reachable from `scheduler_init`. -/
inductive sched_reachable : scheduler → Prop where
  | init (now : Int) : sched_reachable (scheduler_init now)
  | step (s s2 : scheduler) : sched_reachable s → sched_step s s2 → sched_reachable s2

/-! ## RFC 1321, from the specification -/

/-- The per-round shift amounts of RFC 1321, four for each round. -/
def rfc1321_shifts : List Nat := [7, 12, 17, 22, 5, 9, 14, 20, 4, 11, 16, 23, 6, 10, 15, 21]

/-- Step `i` (0-based, `i < 64`) of the RFC 1321 block transform on the working
variables `(a, b, c, d)`: round `i / 16` uses `F`, `G`, `H`, `I` respectively, the
message word `X[k]` with `k = i`, `5i+1`, `3i+5`, `7i` (mod 16), the constant
`T[i]`, and the variables rotate after every step. -/
def rfc1321_step (X : List Nat) (v : Nat × Nat × Nat × Nat) (i : Nat) : Nat × Nat × Nat × Nat :=
  let a := v.1
  let b := v.2.1
  let c := v.2.2.1
  let d := v.2.2.2
  let f := if i < 16 then F b c d else if i < 32 then G b c d
           else if i < 48 then H b c d else I b c d
  let k := if i < 16 then i else if i < 32 then (5 * i + 1) % 16
           else if i < 48 then (3 * i + 5) % 16 else (7 * i) % 16
  let s := rfc1321_shifts.getD (4 * (i / 16) + i % 4) 0
  (d, u32 (b + ROTATE_LEFT (u32 (a + f + X.getD k 0 + T.getD i 0)) s), b, c)

/-- The RFC 1321 block transform, written from the specification: the block is
read as 16 little-endian words, the 64 steps `0..63` are applied in order, and
the result is added to the chaining state. -/
def md5_rfc1321_block (state : List Nat) (block : List Nat) : List Nat :=
  let X := md5_load_block block
  let v := (List.range 64).foldl (rfc1321_step X)
    (state.getD 0 0, state.getD 1 0, state.getD 2 0, state.getD 3 0)
  [u32 (state.getD 0 0 + v.1), u32 (state.getD 1 0 + v.2.1),
   u32 (state.getD 2 0 + v.2.2.1), u32 (state.getD 3 0 + v.2.2.2)]


/-! ## Block view of a message -/

/-- The first `n` consecutive 64-byte chunks of a byte string. -/
def md5_blocks : Nat → List Nat → List (List Nat)
  | 0, _ => []
  | n + 1, l => l.take 64 :: md5_blocks n (l.drop 64)

/-- The complete 64-byte chunks of a byte string, in order. -/
def chunks64 (l : List Nat) : List (List Nat) := md5_blocks (l.length / 64) l

/-- The bytes after the last complete 64-byte chunk. -/
def tail64 (l : List Nat) : List Nat := l.drop (64 * (l.length / 64))

/-- The block transform of the code folded over the complete chunks of a byte string. -/
def md5_compress (state : List Nat) (l : List Nat) : List Nat :=
  (chunks64 l).foldl md5_scalar_block state

/-- The bytes of the buffer that are in use: the first `buffer_len` ones. -/
def md5_pending (ctx : md5_simd_ctx) : List Nat := ctx.buffer.take ctx.buffer_len

/-- The shape every context built by `md5_simd_create` and `md5_simd_update` has:
a 64-byte buffer that is never full between calls. -/
def md5_inv (ctx : md5_simd_ctx) : Prop := ctx.buffer_len < 64 ∧ ctx.buffer.length = 64

/-- The number of zero bytes of the padding of a message of `n` bytes. -/
def md5_zero_count (n : Nat) : Nat := (119 - n % 64) % 64

/-- The message with its padding: one `0x80` byte, `md5_zero_count` zero bytes and
the bit length `8 * |M|` as 8 little-endian bytes. -/
def md5_padded (M : List Nat) : List Nat :=
  M ++ [0x80] ++ List.replicate (md5_zero_count M.length) 0 ++ le_bytes64 (8 * M.length)

/-! ## Inputs of the repository test `tests/test_cpu.c` -/

/-- An uninitialised `hash_ctx_t` variable, as declared in the test before `hash_init`. -/
def blank_ctx : hash_ctx_t := { type := .HASH_UNKNOWN, context := none }

/-- The bytes of the test password `"password123"`. -/
def test_password : List Nat := [112, 97, 115, 115, 119, 111, 114, 100, 49, 50, 51]

/-- The bytes of the message `"abc"`. -/
def msg_abc : List Nat := [0x61, 0x62, 0x63]

/-- The published MD5 digest of the empty message, `d41d8cd98f00b204e9800998ecf8427e`. -/
def md5_empty_expected : List Nat :=
  [0xd4, 0x1d, 0x8c, 0xd9, 0x8f, 0x00, 0xb2, 0x04, 0xe9, 0x80, 0x09, 0x98, 0xec, 0xf8, 0x42, 0x7e]

/-- The published MD5 digest of `"abc"`, `900150983cd24fb0d6963f7d28e17f72`. -/
def md5_abc_expected : List Nat :=
  [0x90, 0x01, 0x50, 0x98, 0x3c, 0xd2, 0x4f, 0xb0, 0xd6, 0x96, 0x3f, 0x7d, 0x28, 0xe1, 0x7f, 0x72]

/-- The FIPS 180-4 SHA-256 digest of `"abc"`. -/
def sha256_abc_expected : List Nat :=
  [0xba, 0x78, 0x16, 0xbf, 0x8f, 0x01, 0xcf, 0xea, 0x41, 0x41, 0x40, 0xde, 0x5d, 0xae, 0x22, 0x23,
   0xb0, 0x03, 0x61, 0xa3, 0x96, 0x17, 0x7a, 0x9c, 0xb4, 0x10, 0xff, 0x61, 0xf2, 0x00, 0x15, 0xad]

/-- The digest bytes `hash_final` leaves in a 16-byte output buffer for the MD5
of a message fed by one `hash_update`. -/
def md5_digest_of (msg : List Nat) : List Nat :=
  (hash_final (hash_update (hash_init blank_ctx .HASH_MD5) msg) (List.replicate 16 0)).2

/-- The block that holds the padded empty message: `0x80` and 63 zero bytes. -/
def padded_empty_block : List Nat := 0x80 :: List.replicate 63 0

/-- A full task array: 1024 queued tasks with ids `0 .. 1023`. -/
def full_scheduler : scheduler :=
  { tasks := (List.range 1024).map
      (fun i => { device := .DEVICE_CPU, task_data := 0, task_size := 0, priority := 0,
                  task_id := (i : Int) })
    task_count := 1024
    running := 0
    ai_hook := none
    last_checkpoint := 0 }

/-- A task that is not in `full_scheduler`. -/
def extra_task : sched_task_t :=
  { device := .DEVICE_GPU, task_data := 0, task_size := 0, priority := 7, task_id := 5000 }

/-! ## Scheduler: array shape, files and dispatch outcomes -/

/-- The shape of a scheduler the C code can hold: the task array has `MAX_TASKS`
entries and `task_count` indexes into it. -/
def sched_wf (s : scheduler) : Prop :=
  s.tasks.length = MAX_TASKS ∧ 0 ≤ s.task_count ∧ s.task_count ≤ (MAX_TASKS : Int)

/-- The value `scheduler_resume` hands back to its caller. The C function is
declared `void`, so there is exactly one possible value. -/
def scheduler_resume_return (_sched : scheduler) (_path : String) : Unit := ()

/-- C `scheduler_resume(sched, path)` run where `files` gives the bytes stored
under each path. The body of the C function opens and reads no file, so `files`
does not enter the result. -/
def scheduler_resume_from (_files : String → Option (List Nat)) (sched : scheduler)
    (path : String) : scheduler :=
  scheduler_resume sched path

/-- The four bytes of a 32-bit value in little-endian order. -/
def le_bytes32 (v : Nat) : List Nat :=
  (List.range 4).map (fun k => (v >>> (8 * k)) &&& 0xff)

/-- The bytes `fwrite(&x, sizeof(int), 1, f)` writes for an `int` on the x86
targets of the build: 32 bits, two's complement, little-endian. -/
def int_image (v : Int) : List Nat := le_bytes32 (v % 4294967296).toNat

/-- The bytes of the file `scheduler_do_checkpoint` writes: the `int` task count,
then the memory image of each array entry written. The image of a
`sched_task_t` depends on the struct layout of the target and is a parameter. -/
def checkpoint_bytes (task_image : sched_task_t → List Nat) (w : checkpoint_write) : List Nat :=
  int_image w.count ++ w.records.flatMap task_image

/-- The tag of a `device_type_t` value. -/
def device_tag : device_type_t → Nat
  | .DEVICE_CPU => 0
  | .DEVICE_GPU => 1
  | .DEVICE_FPGA => 2
  | .DEVICE_UNKNOWN => 3

/-- An instance of the struct image, used in the examples: the x86-64 layout of
`sched_task_t` (enum, 4 padding bytes, pointer, `size_t`, two `int`s; 32 bytes)
with zeroed padding. -/
def lp64_task_image (t : sched_task_t) : List Nat :=
  le_bytes32 (device_tag t.device) ++ [0, 0, 0, 0] ++ le_bytes64 t.task_data ++
    le_bytes64 t.task_size ++ int_image t.priority ++ int_image t.task_id

/-- C `scheduler_checkpoint(sched, path)` as an update of the files: the bytes
written replace what was stored under `path`. -/
def scheduler_checkpoint_to (task_image : sched_task_t → List Nat)
    (files : String → Option (List Nat)) (sched : scheduler) (path : String) :
    String → Option (List Nat) :=
  fun p => if p = path then some (checkpoint_bytes task_image (scheduler_checkpoint sched path).2)
    else files p

/-- Modelled from the spec: one task record of the checkpoint layout of section
4.3, `u8 device_tag, u32 priority, i64 id, u32 payload_len, payload bytes`; the
code has no such record type. -/
structure spec_task_record where
  device_tag : Nat
  priority : Nat
  id : Int
  payload : List Nat
  deriving DecidableEq, Repr

/-- Modelled from the spec: the bytes of one record of the layout of section 4.3. -/
def spec_record_bytes (r : spec_task_record) : List Nat :=
  [r.device_tag % 256] ++ le_bytes32 r.priority ++
    le_bytes64 (r.id % 18446744073709551616).toNat ++ le_bytes32 r.payload.length ++ r.payload

/-- Modelled from the spec: the versioned little-endian checkpoint layout of
section 4.3, `u32 format_version, u32 task_count`, then the records; the code
has no encoder of this layout. -/
def spec_checkpoint_layout (format_version : Nat) (records : List spec_task_record) : List Nat :=
  le_bytes32 format_version ++ le_bytes32 records.length ++ records.flatMap spec_record_bytes

/-- Modelled from the spec: the terminal outcomes of a task named in section 4.1;
the code has no outcome type. -/
inductive task_outcome where
  | Matched
  | Exhausted
  | Failed
  deriving DecidableEq, Repr

/-- The `switch (sched->tasks[i].device)` of `scheduler_thread_func`, as the
outcome it produces for a task: every case is an empty `break`. -/
def scheduler_dispatch (task : sched_task_t) : Option task_outcome :=
  match task.device with
  | .DEVICE_CPU => none
  | .DEVICE_GPU => none
  | .DEVICE_FPGA => none
  | .DEVICE_UNKNOWN => none

/-- A task with the given id and otherwise zero fields. -/
def task_with_id (i : Int) : sched_task_t :=
  { device := .DEVICE_CPU, task_data := 0, task_size := 0, priority := 0, task_id := i }

/-- No file stored anywhere. -/
def no_files : String → Option (List Nat) := fun _ => none

/-! ## `cli/auto_detect.c` -/

/-- The C struct `jug_hash_guess_t`; the `double` confidence is kept as the exact
quotient. -/
structure jug_hash_guess_t where
  type : hash_type_t
  confidence : Rat
  deriving DecidableEq, Repr

/-- One entry of the C table `hash_patterns`. -/
structure hash_pattern where
  type : hash_type_t
  name : String
  pattern : String
  deriving DecidableEq, Repr

/-- The C table `hash_patterns`, in declaration order, the pattern text as
spelled in the source. -/
def hash_patterns : List hash_pattern :=
  [ ⟨.HASH_MD5, "MD5", "^[a-fA-F0-9]\x7b32\x7d$"⟩,
    ⟨.HASH_BCRYPT, "BCRYPT", "^\\$2[aby]\\$[0-9]\x7b2\x7d\\$[./A-Za-z0-9]\x7b53\x7d$"⟩,
    ⟨.HASH_SHA256, "SHA256", "^[a-fA-F0-9]\x7b64\x7d$"⟩,
    ⟨.HASH_SHA256, "SHA256CRYPT", "^\\$5\\$.*"⟩,
    ⟨.HASH_UNKNOWN, "HEX64", "^[a-fA-F0-9]\x7b64\x7d$"⟩,
    ⟨.HASH_UNKNOWN, "HEX40", "^[a-fA-F0-9]\x7b40\x7d$"⟩,
    ⟨.HASH_UNKNOWN, "HEX128", "^[a-fA-F0-9]\x7b128\x7d$"⟩ ]

/-- Macro `MAX_SAMPLE_LINES`. -/
def MAX_SAMPLE_LINES : Nat := 100

/-- Macro `MAX_HASH_TYPES`. -/
def MAX_HASH_TYPES : Nat := 8

/-- Entry `i` of `hash_patterns`. -/
def hash_pattern_at (i : Nat) : hash_pattern :=
  hash_patterns.getD i ⟨.HASH_UNKNOWN, "", ""⟩

/-- C `tally_line(line, scores, npat)`: `scores[i]++` for every pattern that
matches. `match_regex` is the C function of that name, whose body is the POSIX
`regcomp` / `regexec` of the C library. -/
def tally_line (match_regex : List Nat → String → Bool) (line : List Nat) (scores : List Int)
    (npat : Nat) : List Int :=
  (List.range npat).foldl
    (fun sc i =>
      if match_regex line (hash_pattern_at i).pattern then sc.set i (sc.getD i 0 + 1) else sc)
    scores

/-- C `isspace` in the C locale. -/
def isspace (c : Nat) : Bool := c = 32 ∨ (9 ≤ c ∧ c ≤ 13)

/-- The loop `while (p < end && lines < MAX_SAMPLE_LINES) { ... }` of
`jug_auto_detect_buffer`, from position `p` with `lines` lines tallied: the
scores at its end. A line is the run of bytes up to the next newline, cut at 255
bytes; the byte read at `end` is the terminator 0. The first argument bounds the
number of iterations. -/
def detect_loop (match_regex : List Nat → String → Bool) (buf : List Nat) (npat : Nat) :
    Nat → Nat → Nat → List Int → List Int
  | 0, _, _, scores => scores
  | fuel + 1, p, lines, scores =>
    if p < buf.length ∧ lines < MAX_SAMPLE_LINES then
      let line := ((buf.drop p).takeWhile (fun c => c ≠ 10)).take 255
      let l := line.length
      let p := p + l
      let p := if buf.getD p 0 = 10 then p + 1 else p
      if l > 0 ∧ isspace (line.getD 0 0) = false then
        detect_loop match_regex buf npat fuel p (lines + 1)
          (tally_line match_regex line scores npat)
      else detect_loop match_regex buf npat fuel p lines scores
    else scores

/-- The scores of `jug_auto_detect_buffer` after its sampling loop. Every
iteration moves `p` forward, so `len + 1` iterations are never exhausted. -/
def detect_scores (match_regex : List Nat → String → Bool) (buf : List Nat) : List Int :=
  detect_loop match_regex buf hash_patterns.length (buf.length + 1) 0 0
    (List.replicate MAX_HASH_TYPES 0)

/-- The sum `total` of `jug_auto_detect_buffer`. -/
def detect_total (scores : List Int) (npat : Nat) : Rat :=
  (((List.range npat).map (fun i => scores.getD i 0)).sum : Int)

/-- The guess written for pattern `i`. -/
def detect_guess (scores : List Int) (total : Rat) (i : Nat) : jug_hash_guess_t :=
  { type := (hash_pattern_at i).type
    confidence := if total > 0 then (scores.getD i 0 : Rat) / total else 0 }

/-- The loop `for (i = 0; i < npat && nout < max_out; ++i)` of
`jug_auto_detect_buffer`: the entries `out[0 .. nout)` written. -/
def detect_emit (scores : List Int) (total : Rat) (npat max_out : Nat) : List jug_hash_guess_t :=
  (List.range npat).foldl
    (fun out i =>
      if out.length < max_out ∧ scores.getD i 0 > 0 then out ++ [detect_guess scores total i]
      else out)
    []

/-- C `jug_auto_detect_buffer(buf, len, out, max_out)`: the guesses written to
`out`; the returned count is the length of this list. -/
def jug_auto_detect_buffer (match_regex : List Nat → String → Bool) (buf : List Nat)
    (max_out : Nat) : List jug_hash_guess_t :=
  let scores := detect_scores match_regex buf
  let npat := hash_patterns.length
  detect_emit scores (detect_total scores npat) npat max_out

/-- Whether a byte is a hexadecimal digit, `[a-fA-F0-9]`. -/
def is_hex_digit (c : Nat) : Bool :=
  (48 ≤ c ∧ c ≤ 57) ∨ (97 ≤ c ∧ c ≤ 102) ∨ (65 ≤ c ∧ c ≤ 70)

/-- Whether a line is exactly `n` hexadecimal digits. -/
def is_hex_line (n : Nat) (line : List Nat) : Bool :=
  line.length = n ∧ line.all is_hex_digit

/-- An instance of `match_regex`, used in the examples: what `regexec` answers
on lines made of hexadecimal digits only. The four patterns `^[a-fA-F0-9]\x7bn\x7d$`
accept such a line when it has `n` digits; the two patterns that begin with a
dollar sign accept none of them. No other line is used with it. -/
def hex_match_regex (line : List Nat) (pattern : String) : Bool :=
  if pattern = "^[a-fA-F0-9]\x7b32\x7d$" then is_hex_line 32 line
  else if pattern = "^[a-fA-F0-9]\x7b64\x7d$" then is_hex_line 64 line
  else if pattern = "^[a-fA-F0-9]\x7b40\x7d$" then is_hex_line 40 line
  else if pattern = "^[a-fA-F0-9]\x7b128\x7d$" then is_hex_line 128 line
  else false

/-- A buffer of three lines: 32 hex digits, then two lines of 64 hex digits. -/
def sample_hash_lines : List Nat :=
  List.replicate 32 48 ++ [10] ++ List.replicate 64 48 ++ [10] ++ List.replicate 64 49 ++ [10]

/-! ## `cli/main.c`, `cli/commands.h` -/

/-- The C struct `jug_global_opts_t`; a null string pointer is `none`. -/
structure jug_global_opts_t where
  config_path : Option String
  auth_path : Option String
  ack_license : Int
  device_mask : Nat
  json_mode : Int
  no_color : Int
  verbosity : Int
  resume_path : Option String
  deriving DecidableEq, Repr

/-- C `merge_config(g)`. -/
def merge_config (g : jug_global_opts_t) : jug_global_opts_t :=
  let g := if g.config_path = none then { g with config_path := some "config/juggernaut.yml" }
    else g
  let g := if g.auth_path = none then { g with auth_path := some "config/auth.token" } else g
  let g := if g.resume_path = none then { g with resume_path := none } else g
  if g.device_mask = 0 then { g with device_mask := 1 } else g

/-- Whether the C library call `strstr(s, needle)` returns a non-null pointer:
`needle` begins at some position of the string `s` (the bytes before its
terminator). -/
def strstr_found (s needle : List Nat) : Bool :=
  (List.range (s.length + 1)).any (fun i => needle.isPrefixOf (s.drop i))

/-- The bytes of the string literal `"cpu"`. -/
def str_cpu : List Nat := [99, 112, 117]

/-- The bytes of the string literal `"gpu"`. -/
def str_gpu : List Nat := [103, 112, 117]

/-- The bytes of the string literal `"fpga"`. -/
def str_fpga : List Nat := [102, 112, 103, 97]

/-- C `parse_device_mask(s)`. -/
def parse_device_mask (s : List Nat) : Nat :=
  let mask := 0
  let mask := if strstr_found s str_cpu then mask ||| 1 else mask
  let mask := if strstr_found s str_gpu then mask ||| 2 else mask
  let mask := if strstr_found s str_fpga then mask ||| 4 else mask
  mask

/-- The options as `main` holds them before any flag is read (`memset` to zero). -/
def zero_opts : jug_global_opts_t :=
  { config_path := none, auth_path := none, ack_license := 0, device_mask := 0,
    json_mode := 0, no_color := 0, verbosity := 0, resume_path := none }

/-! ## Theorems -/

set_option maxRecDepth 100000

/-- C1 (the code does not meet it): through `hash_init(HASH_MD5)`, `hash_update`
and `hash_final` the code writes `3806ccba92ae8b7b3c9199e847e44090` for the empty
message and `70d24308c593aa7e3d3f7115b80dfa6f` for `"abc"`, neither of which is
the published MD5 digest. -/
theorem C1_md5_known_vectors_differ :
    md5_digest_of [] =
      [0x38, 0x06, 0xcc, 0xba, 0x92, 0xae, 0x8b, 0x7b, 0x3c, 0x91, 0x99, 0xe8, 0x47, 0xe4, 0x40, 0x90] ∧
    md5_digest_of [] ≠ md5_empty_expected ∧
    md5_digest_of msg_abc =
      [0x70, 0xd2, 0x43, 0x08, 0xc5, 0x93, 0xaa, 0x7e, 0x3d, 0x3f, 0x71, 0x15, 0xb8, 0x0d, 0xfa, 0x6f] ∧
    md5_digest_of msg_abc ≠ md5_abc_expected := by
  decide

/-- C2 (the code does not meet it): on the initial chaining state and the block of
the padded empty message, `md5_scalar_process_block` and the RFC 1321 block
transform give different states; the RFC 1321 result is the published digest of
the empty message, the result of the code is `3806ccba92ae8b7b3c9199e847e44090`.
They differ on the block of the bytes `0, 1, .., 63` as well. -/
theorem C2_block_differs_from_rfc1321 :
    md5_scalar_block md5_simd_create.state padded_empty_block ≠
      md5_rfc1321_block md5_simd_create.state padded_empty_block ∧
    md5_output (md5_rfc1321_block md5_simd_create.state padded_empty_block) = md5_empty_expected ∧
    md5_output (md5_scalar_block md5_simd_create.state padded_empty_block) ≠ md5_empty_expected ∧
    md5_output (md5_scalar_block md5_simd_create.state padded_empty_block) =
      [0x38, 0x06, 0xcc, 0xba, 0x92, 0xae, 0x8b, 0x7b, 0x3c, 0x91, 0x99, 0xe8, 0x47, 0xe4, 0x40, 0x90] ∧
    md5_scalar_block md5_simd_create.state (List.range 64) =
      [1245024758, 3608934511, 2297681319, 3408158853] ∧
    md5_scalar_block md5_simd_create.state (List.range 64) ≠
      md5_rfc1321_block md5_simd_create.state (List.range 64) := by
  decide

/-- C3 (the code does not meet it): for the test input `"password123"`, after
`hash_init(HASH_MD5)`, `hash_update` and `hash_final` giving `d`, `hash_verify`
on the same context with target `d` and len 16 returns 0: the second
finalization pads again and yields a different digest
(`d = 2bbc40461819e177238df45256b51c35`, then `11a11819effccfabf421569ad5d9615b`). -/
theorem C3_verify_after_final_returns_zero :
    (hash_verify
      (hash_final (hash_update (hash_init blank_ctx .HASH_MD5) test_password)
        (List.replicate 16 0)).1
      (hash_final (hash_update (hash_init blank_ctx .HASH_MD5) test_password)
        (List.replicate 16 0)).2 16).1 = 0 ∧
    (hash_final
      (hash_final (hash_update (hash_init blank_ctx .HASH_MD5) test_password)
        (List.replicate 16 0)).1 (List.replicate 16 0)).2 ≠
    (hash_final (hash_update (hash_init blank_ctx .HASH_MD5) test_password)
      (List.replicate 16 0)).2 ∧
    (hash_final (hash_update (hash_init blank_ctx .HASH_MD5) test_password)
      (List.replicate 16 0)).2 =
      [0x2b, 0xbc, 0x40, 0x46, 0x18, 0x19, 0xe1, 0x77, 0x23, 0x8d, 0xf4, 0x52, 0x56, 0xb5, 0x1c, 0x35] ∧
    (hash_final
      (hash_final (hash_update (hash_init blank_ctx .HASH_MD5) test_password)
        (List.replicate 16 0)).1 (List.replicate 16 0)).2 =
      [0x11, 0xa1, 0x18, 0x19, 0xef, 0xfc, 0xcf, 0xab, 0xf4, 0x21, 0x56, 0x9a, 0xd5, 0xd9, 0x61, 0x5b] := by
  decide

/-! ### The dispatch layer on initialised contexts -/

theorem hash_update_md5 (c : hash_ctx_t) (X : List Nat) :
    hash_update (hash_init c .HASH_MD5) X =
      { type := .HASH_MD5, context := some (.md5 (md5_simd_update md5_simd_create X)) } := by
  simp [hash_init, hash_update, hash_ops_table, md5_init, md5_update]

theorem hash_update_bcrypt (c : hash_ctx_t) (X : List Nat) :
    hash_update (hash_init c .HASH_BCRYPT) X =
      { type := .HASH_BCRYPT, context := some (.bcrypt (bcrypt_cpu_update bcrypt_cpu_create X)) } := by
  simp [hash_init, hash_update, hash_ops_table, bcrypt_init, bcrypt_update]

theorem hash_update_sha256 (c : hash_ctx_t) (X : List Nat) :
    hash_update (hash_init c .HASH_SHA256) X = { type := .HASH_SHA256, context := none } := by
  simp [hash_init, hash_update, hash_ops_table, sha256_init]

theorem md5_output_length (st : List Nat) : (md5_output st).length = 16 := by
  simp [md5_output, List.range_succ]

theorem md5_simd_final_length (ctx : md5_simd_ctx) : (md5_simd_final ctx).2.length = 16 := by
  simp [md5_simd_final, md5_output_length]

theorem bcrypt_cpu_final_written (ctx : bcrypt_cpu_ctx) :
    (bcrypt_cpu_final ctx).2 = List.replicate 32 0x42 := by
  simp [bcrypt_cpu_final]

theorem memcpy_zero_take (out src : List Nat) (n : Nat) (h : src.length = n) :
    (memcpy out 0 src n).take n = src := by
  subst h
  simp [memcpy]

theorem hash_final_md5_written (c : hash_ctx_t) (X out : List Nat) :
    ((hash_final (hash_update (hash_init c .HASH_MD5) X) out).2).take 16 =
      (md5_simd_final (md5_simd_update md5_simd_create X)).2 := by
  rw [hash_update_md5]
  simp only [hash_final, hash_ops_table, md5_final]
  exact memcpy_zero_take _ _ _ (md5_simd_final_length _)

theorem hash_final_bcrypt_written (c : hash_ctx_t) (X out : List Nat) :
    ((hash_final (hash_update (hash_init c .HASH_BCRYPT) X) out).2).take 32 =
      List.replicate 32 0x42 := by
  rw [hash_update_bcrypt]
  simp only [hash_final, hash_ops_table, bcrypt_final]
  rw [memcpy_zero_take _ _ _ (by simp [bcrypt_cpu_final])]
  exact bcrypt_cpu_final_written _

theorem memcmp_eq_iff (a b : List Nat) (n : Nat) :
    memcmp_eq a b n = true ↔ b.take n = a.take n := by
  unfold memcmp_eq
  rw [decide_eq_true_eq]
  exact eq_comm

theorem md5_simd_verify_result (ctx : md5_simd_ctx) (target : List Nat) (len : Nat) :
    (md5_simd_verify ctx target len).1 =
      if len = 16 ∧ target.take 16 = (md5_simd_final ctx).2 then 1 else 0 := by
  have ht : List.take 16 (md5_simd_final ctx).2 = (md5_simd_final ctx).2 :=
    List.take_of_length_le (le_of_eq (md5_simd_final_length ctx))
  unfold md5_simd_verify
  by_cases h : len = 16
  · rw [if_neg (not_not.mpr h)]
    by_cases hm : memcmp_eq (md5_simd_final ctx).2 target 16 = true
    · have h2 := (memcmp_eq_iff _ _ _).mp hm
      rw [ht] at h2
      rw [if_pos ⟨h, h2⟩]
      show (if memcmp_eq (md5_simd_final ctx).2 target 16 = true then (1 : Int) else 0) = 1
      rw [if_pos hm]
    · have h2 : ¬ (len = 16 ∧ target.take 16 = (md5_simd_final ctx).2) := by
        rintro ⟨_, e⟩
        exact hm ((memcmp_eq_iff _ _ _).mpr (by rw [ht]; exact e))
      rw [if_neg h2]
      show (if memcmp_eq (md5_simd_final ctx).2 target 16 = true then (1 : Int) else 0) = 0
      rw [if_neg hm]
  · rw [if_pos h, if_neg (fun hc => h hc.1)]

theorem bcrypt_cpu_verify_result (ctx : bcrypt_cpu_ctx) (target : List Nat) (len : Nat) :
    (bcrypt_cpu_verify ctx target len).1 =
      if len = 32 ∧ target.take 32 = List.replicate 32 0x42 then 1 else 0 := by
  have ht : List.take 32 (bcrypt_cpu_final ctx).2 = List.replicate 32 0x42 := by
    rw [bcrypt_cpu_final_written]
    exact List.take_of_length_le (by simp)
  unfold bcrypt_cpu_verify
  by_cases h : len = 32
  · rw [if_neg (not_not.mpr h)]
    by_cases hm : memcmp_eq (bcrypt_cpu_final ctx).2 target 32 = true
    · have h2 := (memcmp_eq_iff _ _ _).mp hm
      rw [ht] at h2
      rw [if_pos ⟨h, h2⟩]
      show (if memcmp_eq (bcrypt_cpu_final ctx).2 target 32 = true then (1 : Int) else 0) = 1
      rw [if_pos hm]
    · have h2 : ¬ (len = 32 ∧ target.take 32 = List.replicate 32 0x42) := by
        rintro ⟨_, e⟩
        exact hm ((memcmp_eq_iff _ _ _).mpr (by rw [ht]; exact e))
      rw [if_neg h2]
      show (if memcmp_eq (bcrypt_cpu_final ctx).2 target 32 = true then (1 : Int) else 0) = 0
      rw [if_neg hm]
  · rw [if_pos h, if_neg (fun hc => h hc.1)]

theorem hash_verify_md5 (c : hash_ctx_t) (X target : List Nat) (len : Nat) :
    (hash_verify (hash_update (hash_init c .HASH_MD5) X) target len).1 =
      (md5_simd_verify (md5_simd_update md5_simd_create X) target len).1 := by
  rw [hash_update_md5]
  simp [hash_verify, hash_ops_table, md5_verify]

theorem hash_verify_bcrypt (c : hash_ctx_t) (X target : List Nat) (len : Nat) :
    (hash_verify (hash_update (hash_init c .HASH_BCRYPT) X) target len).1 =
      (bcrypt_cpu_verify (bcrypt_cpu_update bcrypt_cpu_create X) target len).1 := by
  rw [hash_update_bcrypt]
  simp [hash_verify, hash_ops_table, bcrypt_verify]

theorem take_eq_self_of_length (l : List Nat) (n : Nat) (h : l.length = n) : l.take n = l :=
  List.take_of_length_le (le_of_eq h)

theorem set_ne_self (d : List Nat) (i v : Nat) (hi : i < d.length) (hv : v ≠ d.getD i 0) :
    d.set i v ≠ d := by
  intro e
  have h1 : (d.set i v).getD i 0 = v := by
    simp [List.getD_eq_getElem?_getD, List.getElem?_set, hi]
  rw [e] at h1
  exact hv h1.symm

/-- C4: on a context initialised and updated with `X` but not finalized,
`hash_verify(ctx, target, len)` (with `target` a buffer of `len` bytes) returns 1
if and only if `len` is the digest length (16 for MD5, 32 for BCRYPT) and
`target` equals the bytes `hash_final` writes for a separate context fed the same
`X`, and returns 0 otherwise; so it returns 0 for the digest with one byte
changed and for every other `len`. -/
theorem C4_verify_iff_digest (c c2 : hash_ctx_t) (X target out : List Nat) (len : Nat)
    (hlen : target.length = len) :
    ((hash_verify (hash_update (hash_init c .HASH_MD5) X) target len).1 = 1 ↔
      len = 16 ∧
        target = ((hash_final (hash_update (hash_init c2 .HASH_MD5) X) out).2).take 16) ∧
    ((hash_verify (hash_update (hash_init c .HASH_MD5) X) target len).1 ≠ 1 →
      (hash_verify (hash_update (hash_init c .HASH_MD5) X) target len).1 = 0) ∧
    ((hash_verify (hash_update (hash_init c .HASH_BCRYPT) X) target len).1 = 1 ↔
      len = 32 ∧
        target = ((hash_final (hash_update (hash_init c2 .HASH_BCRYPT) X) out).2).take 32) ∧
    ((hash_verify (hash_update (hash_init c .HASH_BCRYPT) X) target len).1 ≠ 1 →
      (hash_verify (hash_update (hash_init c .HASH_BCRYPT) X) target len).1 = 0) ∧
    (∀ i v, i < 16 →
      v ≠ (((hash_final (hash_update (hash_init c2 .HASH_MD5) X) out).2).take 16).getD i 0 →
      (hash_verify (hash_update (hash_init c .HASH_MD5) X)
        ((((hash_final (hash_update (hash_init c2 .HASH_MD5) X) out).2).take 16).set i v)
        16).1 = 0) ∧
    (∀ i v, i < 32 →
      v ≠ (((hash_final (hash_update (hash_init c2 .HASH_BCRYPT) X) out).2).take 32).getD i 0 →
      (hash_verify (hash_update (hash_init c .HASH_BCRYPT) X)
        ((((hash_final (hash_update (hash_init c2 .HASH_BCRYPT) X) out).2).take 32).set i v)
        32).1 = 0) := by
  rw [hash_final_md5_written, hash_final_bcrypt_written, hash_verify_md5, hash_verify_bcrypt,
    md5_simd_verify_result, bcrypt_cpu_verify_result]
  have hd := md5_simd_final_length (md5_simd_update md5_simd_create X)
  have hr : (List.replicate 32 (0x42 : Nat)).length = 32 := List.length_replicate 32 0x42
  refine ⟨?_, ?_, ?_, ?_, ?_, ?_⟩
  · constructor
    · intro h
      by_cases hc : len = 16 ∧ target.take 16 = (md5_simd_final (md5_simd_update md5_simd_create X)).2
      · refine ⟨hc.1, ?_⟩
        rw [← hc.2]
        exact (take_eq_self_of_length target 16 (hlen.trans hc.1)).symm
      · rw [if_neg hc] at h
        exact absurd h (by decide)
    · rintro ⟨h1, h2⟩
      rw [if_pos ⟨h1, by rw [h2]; exact take_eq_self_of_length _ _ hd⟩]
  · intro h
    by_cases hc : len = 16 ∧ target.take 16 = (md5_simd_final (md5_simd_update md5_simd_create X)).2
    · rw [if_pos hc] at h
      exact absurd rfl h
    · rw [if_neg hc]
  · constructor
    · intro h
      by_cases hc : len = 32 ∧ target.take 32 = List.replicate 32 0x42
      · refine ⟨hc.1, ?_⟩
        rw [← hc.2]
        exact (take_eq_self_of_length target 32 (hlen.trans hc.1)).symm
      · rw [if_neg hc] at h
        exact absurd h (by decide)
    · rintro ⟨h1, h2⟩
      rw [if_pos ⟨h1, by rw [h2]; exact take_eq_self_of_length _ _ hr⟩]
  · intro h
    by_cases hc : len = 32 ∧ target.take 32 = List.replicate 32 0x42
    · rw [if_pos hc] at h
      exact absurd rfl h
    · rw [if_neg hc]
  · intro i v hi hv
    rw [hash_verify_md5, md5_simd_verify_result]
    have hne := set_ne_self _ i v (by rw [hd]; exact hi) hv
    rw [if_neg]
    rintro ⟨_, e⟩
    rw [take_eq_self_of_length _ 16 (by rw [List.length_set]; exact hd)] at e
    exact hne e
  · intro i v hi hv
    rw [hash_verify_bcrypt, bcrypt_cpu_verify_result]
    have hne := set_ne_self _ i v (by rw [hr]; exact hi) hv
    rw [if_neg]
    rintro ⟨_, e⟩
    rw [take_eq_self_of_length _ 32 (by rw [List.length_set]; exact hr)] at e
    exact hne e

/-- C4, at the message `"abc"`: the 16 bytes `hash_final` writes are accepted
by `hash_verify` on a fresh context fed the same message. -/
theorem C4_verify_iff_digest_witness :
    (hash_verify (hash_update (hash_init blank_ctx .HASH_MD5) msg_abc)
      [0x70, 0xd2, 0x43, 0x08, 0xc5, 0x93, 0xaa, 0x7e, 0x3d, 0x3f, 0x71, 0x15, 0xb8, 0x0d, 0xfa, 0x6f]
      16).1 = 1 :=
  (C4_verify_iff_digest blank_ctx blank_ctx msg_abc
    [0x70, 0xd2, 0x43, 0x08, 0xc5, 0x93, 0xaa, 0x7e, 0x3d, 0x3f, 0x71, 0x15, 0xb8, 0x0d, 0xfa, 0x6f]
    (List.replicate 16 0) 16 (by decide)).1.mpr ⟨rfl, by decide⟩

/-! ### MD5 streaming: one update in terms of blocks -/

theorem getD_take_lt (b : List Nat) (j n : Nat) (h : j < n) :
    (b.take n).getD j 0 = b.getD j 0 := by
  simp [List.getD_eq_getElem?_getD, List.getElem?_take, h]

theorem load_word_take (b : List Nat) (i : Nat) (h : i < 16) :
    load_word (b.take 64) i = load_word b i := by
  unfold load_word
  rw [getD_take_lt b _ 64 (by omega), getD_take_lt b _ 64 (by omega),
    getD_take_lt b _ 64 (by omega), getD_take_lt b _ 64 (by omega)]

theorem md5_load_block_take (b : List Nat) : md5_load_block (b.take 64) = md5_load_block b := by
  unfold md5_load_block
  apply List.map_congr_left
  intro i hi
  exact load_word_take b i (List.mem_range.mp hi)

theorem md5_scalar_block_take (st b : List Nat) :
    md5_scalar_block st (b.take 64) = md5_scalar_block st b := by
  unfold md5_scalar_block
  rw [md5_load_block_take]

theorem md5_update_loop_spec (fuel : Nat) (ctx : md5_simd_ctx) (data : List Nat) (off : Nat)
    (hfuel : (data.length - off) / 64 ≤ fuel) :
    md5_update_loop fuel ctx data off =
      ({ ctx with state :=
          (md5_blocks ((data.length - off) / 64) (data.drop off)).foldl md5_scalar_block ctx.state },
       off + 64 * ((data.length - off) / 64)) := by
  induction fuel generalizing ctx off with
  | zero =>
    have h0 : (data.length - off) / 64 = 0 := by omega
    rw [h0]
    rfl
  | succ fuel ih =>
    unfold md5_update_loop
    by_cases h : off + 64 ≤ data.length
    · rw [if_pos h, ih _ _ (by omega)]
      have hq : (data.length - off) / 64 = (data.length - (off + 64)) / 64 + 1 := by omega
      rw [hq]
      simp only [md5_blocks, List.foldl_cons, md5_simd_process_block, md5_scalar_process_block,
        md5_scalar_block_take, List.drop_drop]
      congr 1
      omega
    · rw [if_neg h]
      have h0 : (data.length - off) / 64 = 0 := by omega
      rw [h0]
      rfl


theorem md5_blocks_append (q n : Nat) (L x : List Nat) (hL : L.length = 64 * q) :
    md5_blocks (q + n) (L ++ x) = md5_blocks q L ++ md5_blocks n x := by
  induction q generalizing L with
  | zero =>
    have hnil : L = [] := List.length_eq_zero.mp (by omega)
    subst hnil
    rw [Nat.zero_add]
    rfl
  | succ q ih =>
    have e : q + 1 + n = (q + n) + 1 := by omega
    rw [e]
    simp only [md5_blocks]
    rw [List.take_append_of_le_length (by omega), List.drop_append_of_le_length (by omega),
      ih _ (by rw [List.length_drop]; omega)]
    rfl

theorem md5_blocks_zero (l : List Nat) : md5_blocks 0 l = [] := rfl

theorem chunks64_append_full (q : Nat) (L x : List Nat) (hL : L.length = 64 * q) :
    chunks64 (L ++ x) = md5_blocks q L ++ chunks64 x := by
  unfold chunks64
  have e : (L ++ x).length / 64 = q + x.length / 64 := by
    rw [List.length_append, hL]
    omega
  rw [e, md5_blocks_append q _ L x hL]

theorem tail64_append_full (q : Nat) (L x : List Nat) (hL : L.length = 64 * q) :
    tail64 (L ++ x) = tail64 x := by
  unfold tail64
  have e : 64 * ((L ++ x).length / 64) = L.length + 64 * (x.length / 64) := by
    rw [List.length_append, hL]
    omega
  rw [e, List.drop_append]

theorem take_append_tail64 (l : List Nat) : l.take (64 * (l.length / 64)) ++ tail64 l = l :=
  List.take_append_drop _ l

theorem length_take_full (l : List Nat) :
    (l.take (64 * (l.length / 64))).length = 64 * (l.length / 64) := by
  rw [List.length_take]
  omega

theorem length_tail64 (l : List Nat) : (tail64 l).length = l.length % 64 := by
  unfold tail64
  rw [List.length_drop]
  omega

theorem chunks64_short (l : List Nat) (h : l.length < 64) : chunks64 l = [] := by
  unfold chunks64
  rw [Nat.div_eq_of_lt h]
  rfl

theorem tail64_short (l : List Nat) (h : l.length < 64) : tail64 l = l := by
  unfold tail64
  rw [Nat.div_eq_of_lt h]
  rfl

theorem chunks64_eq_blocks_take (l : List Nat) :
    chunks64 l = md5_blocks (l.length / 64) (l.take (64 * (l.length / 64))) := by
  have h := chunks64_append_full (l.length / 64) _ (tail64 l) (length_take_full l)
  rw [take_append_tail64] at h
  rw [h, chunks64_short _ (by rw [length_tail64]; omega), List.append_nil]

theorem md5_compress_append (st l m : List Nat) :
    md5_compress st (l ++ m) = md5_compress (md5_compress st l) (tail64 l ++ m) := by
  unfold md5_compress
  have h := chunks64_append_full (l.length / 64) _ (tail64 l ++ m) (length_take_full l)
  rw [← List.append_assoc, take_append_tail64] at h
  rw [h, List.foldl_append, ← chunks64_eq_blocks_take]

theorem tail64_append (l m : List Nat) : tail64 (l ++ m) = tail64 (tail64 l ++ m) := by
  have h := tail64_append_full (l.length / 64) _ (tail64 l ++ m) (length_take_full l)
  rw [← List.append_assoc, take_append_tail64] at h
  exact h

theorem length_mod_append (l m : List Nat) :
    (l ++ m).length % 64 = (tail64 l ++ m).length % 64 := by
  rw [List.length_append, List.length_append, length_tail64]
  omega


theorem memcpy_length (dst src : List Nat) (doff n : Nat) (h1 : doff + n ≤ dst.length)
    (h2 : n ≤ src.length) : (memcpy dst doff src n).length = dst.length := by
  unfold memcpy
  simp only [List.length_append, List.length_take, List.length_drop]
  omega

theorem memcpy_take (dst src : List Nat) (doff n : Nat) (h1 : doff ≤ dst.length)
    (h2 : n ≤ src.length) :
    (memcpy dst doff src n).take (doff + n) = dst.take doff ++ src.take n := by
  unfold memcpy
  have hl : (dst.take doff ++ src.take n).length = doff + n := by
    simp only [List.length_append, List.length_take]
    omega
  rw [List.take_append_of_le_length (le_of_eq hl.symm)]
  exact List.take_of_length_le (le_of_eq hl)

theorem memcpy_full (dst src : List Nat) (doff n : Nat) (h1 : doff + n = dst.length) :
    memcpy dst doff src n = dst.take doff ++ src.take n := by
  unfold memcpy
  rw [List.drop_of_length_le (le_of_eq h1.symm), List.append_nil]

theorem md5_update_fill_empty (ctx : md5_simd_ctx) (data : List Nat) (h : ctx.buffer_len = 0) :
    md5_update_fill ctx data = (ctx, 0) := by
  unfold md5_update_fill
  simp only [h, gt_iff_lt, lt_self_iff_false, if_false]

theorem md5_update_fill_partial (ctx : md5_simd_ctx) (data : List Nat) (h0 : 0 < ctx.buffer_len)
    (h : ctx.buffer_len + data.length < 64) :
    md5_update_fill ctx data =
      ({ ctx with buffer := memcpy ctx.buffer ctx.buffer_len data data.length
                  buffer_len := ctx.buffer_len + data.length }, data.length) := by
  unfold md5_update_fill
  have h1 : 64 - ctx.buffer_len > data.length := by omega
  have h2 : ¬ ctx.buffer_len + data.length = 64 := by omega
  simp only [gt_iff_lt, h0, if_true, h1, h2, if_false, Nat.zero_add]

theorem md5_update_fill_block (ctx : md5_simd_ctx) (data : List Nat) (h0 : 0 < ctx.buffer_len)
    (h64 : ctx.buffer_len < 64) (h : 64 ≤ ctx.buffer_len + data.length) :
    md5_update_fill ctx data =
      ({ ctx with state := md5_scalar_block ctx.state
                    (memcpy ctx.buffer ctx.buffer_len data (64 - ctx.buffer_len))
                  buffer := memcpy ctx.buffer ctx.buffer_len data (64 - ctx.buffer_len)
                  buffer_len := 0 }, 64 - ctx.buffer_len) := by
  unfold md5_update_fill
  have h1 : ¬ data.length < 64 - ctx.buffer_len := by omega
  have h2 : ctx.buffer_len + (64 - ctx.buffer_len) = 64 := by omega
  simp only [gt_iff_lt, h0, if_true, h1, h2, if_false, Nat.zero_add, md5_simd_process_block,
    md5_scalar_process_block]

theorem md5_update_tail_spec (ctx : md5_simd_ctx) (data : List Nat) (off : Nat)
    (hoff : off ≤ data.length) (hbl : ctx.buffer_len = 0) (hlen : ctx.buffer.length = 64) :
    (md5_update_rest (md5_update_loop data.length ctx data off).1 data
        (md5_update_loop data.length ctx data off).2).state
      = md5_compress ctx.state (data.drop off) ∧
    (md5_update_rest (md5_update_loop data.length ctx data off).1 data
        (md5_update_loop data.length ctx data off).2).buffer_len
      = (data.length - off) % 64 ∧
    md5_pending (md5_update_rest (md5_update_loop data.length ctx data off).1 data
        (md5_update_loop data.length ctx data off).2)
      = tail64 (data.drop off) ∧
    (md5_update_rest (md5_update_loop data.length ctx data off).1 data
        (md5_update_loop data.length ctx data off).2).buffer.length = 64 ∧
    (md5_update_rest (md5_update_loop data.length ctx data off).1 data
        (md5_update_loop data.length ctx data off).2).bitcount = ctx.bitcount := by
  rw [md5_update_loop_spec data.length ctx data off (by
    exact le_trans (Nat.div_le_self _ _) (Nat.sub_le _ _))]
  have hst : md5_compress ctx.state (data.drop off) =
      (md5_blocks ((data.length - off) / 64) (data.drop off)).foldl md5_scalar_block ctx.state := by
    unfold md5_compress chunks64
    rw [List.length_drop]
  have htl : tail64 (data.drop off) = data.drop (off + 64 * ((data.length - off) / 64)) := by
    unfold tail64
    rw [List.length_drop, List.drop_drop]
  rw [hst, htl]
  unfold md5_update_rest md5_pending
  by_cases h : off + 64 * ((data.length - off) / 64) < data.length
  · simp only [h, if_true]
    have hn : data.length - (off + 64 * ((data.length - off) / 64)) ≤
        (data.drop (off + 64 * ((data.length - off) / 64))).length := by
      rw [List.length_drop]
    refine ⟨trivial, by omega, ?_, ?_, trivial⟩
    · have ht := memcpy_take ctx.buffer (data.drop (off + 64 * ((data.length - off) / 64))) 0
        (data.length - (off + 64 * ((data.length - off) / 64))) (Nat.zero_le _) hn
      rw [Nat.zero_add] at ht
      rw [ht, List.take_zero, List.nil_append]
      exact List.take_of_length_le (by rw [List.length_drop])
    · rw [memcpy_length _ _ _ _ (by omega) hn, hlen]
  · simp only [h, if_false]
    refine ⟨trivial, by omega, ?_, hlen, trivial⟩
    rw [hbl, List.take_zero]
    exact (List.drop_of_length_le (by omega)).symm


theorem md5_simd_update_bitcount (ctx : md5_simd_ctx) (data : List Nat) :
    (md5_simd_update ctx data).bitcount =
      u64 ((md5_update_rest (md5_update_loop data.length (md5_update_fill ctx data).1 data
        (md5_update_fill ctx data).2).1 data (md5_update_loop data.length
        (md5_update_fill ctx data).1 data (md5_update_fill ctx data).2).2).bitcount
        + u64 (data.length * 8)) := rfl

/-- What one `md5_simd_update` does, in terms of the bytes pending in the buffer
followed by the new data. -/
theorem md5_simd_update_spec (ctx : md5_simd_ctx) (data : List Nat) (hinv : md5_inv ctx) :
    md5_inv (md5_simd_update ctx data) ∧
    (md5_simd_update ctx data).state = md5_compress ctx.state (md5_pending ctx ++ data) ∧
    md5_pending (md5_simd_update ctx data) = tail64 (md5_pending ctx ++ data) ∧
    (md5_simd_update ctx data).buffer_len = (md5_pending ctx ++ data).length % 64 ∧
    (md5_simd_update ctx data).bitcount = u64 (ctx.bitcount + u64 (data.length * 8)) := by
  obtain ⟨h64, hlen⟩ := hinv
  have hpl : (md5_pending ctx).length = ctx.buffer_len := by
    unfold md5_pending
    rw [List.length_take]
    omega
  have key : ∀ (c : md5_simd_ctx) (off : Nat), md5_update_fill ctx data = (c, off) →
      off ≤ data.length → c.buffer_len = 0 → c.buffer.length = 64 → c.bitcount = ctx.bitcount →
      md5_compress c.state (data.drop off) = md5_compress ctx.state (md5_pending ctx ++ data) →
      tail64 (data.drop off) = tail64 (md5_pending ctx ++ data) →
      (data.length - off) % 64 = (md5_pending ctx ++ data).length % 64 →
      (md5_inv (md5_simd_update ctx data) ∧
      (md5_simd_update ctx data).state = md5_compress ctx.state (md5_pending ctx ++ data) ∧
      md5_pending (md5_simd_update ctx data) = tail64 (md5_pending ctx ++ data) ∧
      (md5_simd_update ctx data).buffer_len = (md5_pending ctx ++ data).length % 64 ∧
      (md5_simd_update ctx data).bitcount = u64 (ctx.bitcount + u64 (data.length * 8))) := by
    intro c off hfill hoff hbl hbuf hbc hst htl hmod
    have hs := md5_update_tail_spec c data off hoff hbl hbuf
    rw [md5_simd_update_bitcount]
    unfold md5_simd_update md5_inv md5_pending
    simp only [hfill]
    unfold md5_pending at hs
    obtain ⟨s1, s2, s3, s4, s5⟩ := hs
    refine ⟨⟨?_, s4⟩, ?_, ?_, ?_, ?_⟩
    · rw [s2]
      omega
    · rw [s1, hst]
      rfl
    · rw [s3, htl]
      rfl
    · rw [s2, hmod]
      rfl
    · rw [s5, hbc]
  by_cases h0 : ctx.buffer_len = 0
  · have hp : md5_pending ctx = [] := by
      unfold md5_pending
      rw [h0, List.take_zero]
    refine key ctx 0 (md5_update_fill_empty ctx data h0) (Nat.zero_le _) h0 hlen rfl ?_ ?_ ?_
    · rw [hp, List.drop_zero, List.nil_append]
    · rw [hp, List.drop_zero, List.nil_append]
    · rw [hp, List.nil_append, Nat.sub_zero]
  · have hpos : 0 < ctx.buffer_len := Nat.pos_of_ne_zero h0
    by_cases hfit : ctx.buffer_len + data.length < 64
    · -- the data fits in the buffer: no block is processed
      have hfill := md5_update_fill_partial ctx data hpos hfit
      have hall : (md5_pending ctx ++ data).length < 64 := by
        rw [List.length_append, hpl]
        exact hfit
      have hl := md5_update_loop_spec data.length
        { ctx with buffer := memcpy ctx.buffer ctx.buffer_len data data.length
                   buffer_len := ctx.buffer_len + data.length } data data.length
        (by rw [Nat.sub_self]; exact Nat.zero_le _)
      rw [Nat.sub_self, Nat.zero_div] at hl
      rw [md5_simd_update_bitcount]
      unfold md5_simd_update md5_inv
      simp only [hfill, hl, md5_blocks, List.foldl_nil, Nat.mul_zero, Nat.add_zero,
        md5_update_rest, lt_self_iff_false, if_false]
      unfold md5_pending at hall hpl ⊢
      simp only []
      refine ⟨⟨hfit, ?_⟩, ?_, ?_, ?_, trivial⟩
      · rw [memcpy_length _ _ _ _ (by omega) (le_refl _), hlen]
      · unfold md5_compress
        rw [chunks64_short _ hall]
        rfl
      · rw [tail64_short _ hall, memcpy_take _ _ _ _ (by omega) (le_refl _), List.take_length]
      · rw [Nat.mod_eq_of_lt hall, List.length_append, hpl]
    · -- the buffer fills up: its block is processed first
      have hge : 64 ≤ ctx.buffer_len + data.length := by omega
      have hfill := md5_update_fill_block ctx data hpos h64 hge
      have hm : memcpy ctx.buffer ctx.buffer_len data (64 - ctx.buffer_len) =
          md5_pending ctx ++ data.take (64 - ctx.buffer_len) :=
        memcpy_full _ _ _ _ (by omega)
      have hsplit : md5_pending ctx ++ data =
          (md5_pending ctx ++ data.take (64 - ctx.buffer_len)) ++
            data.drop (64 - ctx.buffer_len) := by
        rw [List.append_assoc, List.take_append_drop]
      have hL : (md5_pending ctx ++ data.take (64 - ctx.buffer_len)).length = 64 * 1 := by
        rw [List.length_append, hpl, List.length_take]
        omega
      refine key _ (64 - ctx.buffer_len) hfill (by omega) rfl ?_ rfl ?_ ?_ ?_
      · show (memcpy ctx.buffer ctx.buffer_len data (64 - ctx.buffer_len)).length = 64
        rw [memcpy_length _ _ _ _ (by omega) (by omega), hlen]
      · show md5_compress (md5_scalar_block ctx.state
            (memcpy ctx.buffer ctx.buffer_len data (64 - ctx.buffer_len)))
            (data.drop (64 - ctx.buffer_len)) = _
        rw [hm]
        conv => rhs; rw [hsplit]
        unfold md5_compress
        rw [chunks64_append_full 1 _ _ hL, List.foldl_append]
        simp only [md5_blocks, List.foldl_cons, List.foldl_nil, md5_scalar_block_take]
      · conv => rhs; rw [hsplit]
        rw [tail64_append_full 1 _ _ hL]
      · rw [List.length_append, hpl]
        omega


theorem md5_inv_create : md5_inv md5_simd_create := by
  unfold md5_inv md5_simd_create
  exact ⟨by decide, List.length_replicate _ _⟩

theorem md5_reachable_inv (ctx : md5_simd_ctx) (h : md5_reachable ctx) : md5_inv ctx := by
  induction h with
  | create => exact md5_inv_create
  | update ctx data _ ih => exact (md5_simd_update_spec ctx data ih).1

theorem md5_pending_create : md5_pending md5_simd_create = [] := rfl

theorem u64_add_u64 (a b c : Nat) :
    u64 (u64 (a + u64 (b * 8)) + u64 (c * 8)) = u64 (a + u64 ((b + c) * 8)) := by
  unfold u64
  omega

/-- Two contexts that agree on the chaining state, the bit count, the buffer
length and the pending bytes still agree on them after the same update. -/
theorem md5_simd_update_congr (c1 c2 : md5_simd_ctx) (data : List Nat)
    (h1 : md5_inv c1) (h2 : md5_inv c2) (hs : c1.state = c2.state)
    (hb : c1.bitcount = c2.bitcount) (hp : md5_pending c1 = md5_pending c2) :
    (md5_simd_update c1 data).state = (md5_simd_update c2 data).state ∧
    (md5_simd_update c1 data).bitcount = (md5_simd_update c2 data).bitcount ∧
    (md5_simd_update c1 data).buffer_len = (md5_simd_update c2 data).buffer_len ∧
    md5_pending (md5_simd_update c1 data) = md5_pending (md5_simd_update c2 data) := by
  obtain ⟨_, a1, a2, a3, a4⟩ := md5_simd_update_spec c1 data h1
  obtain ⟨_, b1, b2, b3, b4⟩ := md5_simd_update_spec c2 data h2
  rw [a1, a2, a3, a4, b1, b2, b3, b4, hs, hb, hp]
  exact ⟨rfl, rfl, rfl, rfl⟩

theorem md5_simd_final_congr (c1 c2 : md5_simd_ctx)
    (h1 : md5_inv c1) (h2 : md5_inv c2) (hs : c1.state = c2.state)
    (hb : c1.bitcount = c2.bitcount) (hl : c1.buffer_len = c2.buffer_len)
    (hp : md5_pending c1 = md5_pending c2) :
    (md5_simd_final c1).2 = (md5_simd_final c2).2 := by
  unfold md5_simd_final
  simp only []
  have hpl : md5_final_pad_len c1 = md5_final_pad_len c2 := by
    unfold md5_final_pad_len
    rw [hl]
  rw [hpl, hb]
  have e1 := md5_simd_update_congr c1 c2 (md5_pad.take (md5_final_pad_len c2)) h1 h2 hs hb hp
  have i1 := (md5_simd_update_spec c1 (md5_pad.take (md5_final_pad_len c2)) h1).1
  have i2 := (md5_simd_update_spec c2 (md5_pad.take (md5_final_pad_len c2)) h2).1
  have e2 := md5_simd_update_congr _ _ (le_bytes64 c2.bitcount) i1 i2 e1.1 e1.2.1 e1.2.2.2
  rw [e2.1]


/-- C5: from every context reachable from `md5_simd_create` by updates,
`md5_simd_update(A)` followed by `md5_simd_update(B)` leaves the same chaining
state, bitcount, buffer_len and first buffer_len buffered bytes as one
`md5_simd_update(A ++ B)`, and `md5_simd_final` then writes the same digest. -/
theorem C5_md5_streaming (ctx : md5_simd_ctx) (hctx : md5_reachable ctx) (A B : List Nat) :
    (md5_simd_update (md5_simd_update ctx A) B).state = (md5_simd_update ctx (A ++ B)).state ∧
    (md5_simd_update (md5_simd_update ctx A) B).bitcount =
      (md5_simd_update ctx (A ++ B)).bitcount ∧
    (md5_simd_update (md5_simd_update ctx A) B).buffer_len =
      (md5_simd_update ctx (A ++ B)).buffer_len ∧
    (md5_simd_update (md5_simd_update ctx A) B).buffer.take
        (md5_simd_update (md5_simd_update ctx A) B).buffer_len =
      (md5_simd_update ctx (A ++ B)).buffer.take (md5_simd_update ctx (A ++ B)).buffer_len ∧
    (md5_simd_final (md5_simd_update (md5_simd_update ctx A) B)).2 =
      (md5_simd_final (md5_simd_update ctx (A ++ B))).2 := by
  have hinv := md5_reachable_inv ctx hctx
  obtain ⟨iA, a1, a2, _, a4⟩ := md5_simd_update_spec ctx A hinv
  obtain ⟨iB, b1, b2, b3, b4⟩ := md5_simd_update_spec (md5_simd_update ctx A) B iA
  obtain ⟨iAB, c1, c2, c3, c4⟩ := md5_simd_update_spec ctx (A ++ B) hinv
  have hs : (md5_simd_update (md5_simd_update ctx A) B).state =
      (md5_simd_update ctx (A ++ B)).state := by
    rw [b1, a1, a2, c1, ← List.append_assoc, ← md5_compress_append]
  have hb : (md5_simd_update (md5_simd_update ctx A) B).bitcount =
      (md5_simd_update ctx (A ++ B)).bitcount := by
    rw [b4, a4, c4, List.length_append, u64_add_u64]
  have hl : (md5_simd_update (md5_simd_update ctx A) B).buffer_len =
      (md5_simd_update ctx (A ++ B)).buffer_len := by
    rw [b3, a2, c3, ← List.append_assoc, ← length_mod_append]
  have hp : md5_pending (md5_simd_update (md5_simd_update ctx A) B) =
      md5_pending (md5_simd_update ctx (A ++ B)) := by
    rw [b2, a2, c2, ← List.append_assoc, ← tail64_append]
  exact ⟨hs, hb, hl, hp, md5_simd_final_congr _ _ iB iAB hs hb hl hp⟩

/-- C5, at the fresh context with `A = "ab"` and `B = "c"`. -/
theorem C5_md5_streaming_witness :
    (md5_simd_final (md5_simd_update (md5_simd_update md5_simd_create [0x61, 0x62]) [0x63])).2 =
      (md5_simd_final (md5_simd_update md5_simd_create ([0x61, 0x62] ++ [0x63]))).2 :=
  (C5_md5_streaming md5_simd_create .create [0x61, 0x62] [0x63]).2.2.2.2

/-! ### Padding -/

theorem and_255 (x : Nat) : x &&& 255 = x % 256 := Nat.and_pow_two_sub_one_eq_mod x 8

theorem le_bytes64_u64 (v : Nat) : le_bytes64 (u64 v) = le_bytes64 v := by
  unfold le_bytes64
  apply List.map_congr_left
  intro k hk
  have hk8 : k < 8 := List.mem_range.mp hk
  show (u64 v >>> (8 * k)) &&& 255 = (v >>> (8 * k)) &&& 255
  rw [and_255, and_255, Nat.shiftRight_eq_div_pow, Nat.shiftRight_eq_div_pow]
  unfold u64
  interval_cases k <;> norm_num <;> omega

theorem le_bytes64_length (v : Nat) : (le_bytes64 v).length = 8 := by
  simp [le_bytes64]

theorem md5_blocks_flatten (q : Nat) (l : List Nat) (h : 64 * q ≤ l.length) :
    (md5_blocks q l).flatten = l.take (64 * q) ∧ ∀ b ∈ md5_blocks q l, b.length = 64 := by
  induction q generalizing l with
  | zero => exact ⟨by simp [md5_blocks], by simp [md5_blocks]⟩
  | succ q ih =>
    obtain ⟨i1, i2⟩ := ih (l.drop 64) (by rw [List.length_drop]; omega)
    constructor
    · simp only [md5_blocks, List.flatten_cons, i1]
      have e : 64 * (q + 1) = 64 + 64 * q := by omega
      rw [e, List.take_add]
    · intro b hb
      simp only [md5_blocks, List.mem_cons] at hb
      rcases hb with hb | hb
      · rw [hb, List.length_take]
        omega
      · exact i2 b hb

theorem md5_zero_count_spec (n : Nat) :
    (n + 1 + md5_zero_count n) % 64 = 56 ∧ ∀ j, j < md5_zero_count n → (n + 1 + j) % 64 ≠ 56 := by
  unfold md5_zero_count
  constructor
  · omega
  · intro j hj
    omega

theorem md5_final_pad_len_eq (ctx : md5_simd_ctx) (n : Nat) (h : ctx.buffer_len = n % 64) :
    md5_final_pad_len ctx = md5_zero_count n + 1 := by
  unfold md5_final_pad_len md5_zero_count
  rw [h]
  split <;> omega

theorem md5_pad_take (k : Nat) (h : k ≤ 63) :
    md5_pad.take (k + 1) = 0x80 :: List.replicate k 0 := by
  unfold md5_pad
  rw [List.take_succ_cons, List.take_replicate, Nat.min_eq_left h]

theorem md5_zero_count_le (n : Nat) : md5_zero_count n ≤ 63 := by
  unfold md5_zero_count
  omega


theorem u64_step (a d f : Nat) : u64 (u64 (a + u64 (d * 8)) + 8 * f) = u64 (a + 8 * (d + f)) := by
  unfold u64
  omega

/-- What a sequence of `md5_simd_update` calls does, in terms of the bytes
pending in the buffer followed by all the data fed. -/
theorem md5_updates_spec (Ms : List (List Nat)) (ctx : md5_simd_ctx) (hinv : md5_inv ctx) :
    md5_inv (Ms.foldl md5_simd_update ctx) ∧
    (Ms.foldl md5_simd_update ctx).state =
      md5_compress ctx.state (md5_pending ctx ++ Ms.flatten) ∧
    md5_pending (Ms.foldl md5_simd_update ctx) = tail64 (md5_pending ctx ++ Ms.flatten) ∧
    (Ms.foldl md5_simd_update ctx).buffer_len = (md5_pending ctx ++ Ms.flatten).length % 64 ∧
    u64 (Ms.foldl md5_simd_update ctx).bitcount = u64 (ctx.bitcount + 8 * Ms.flatten.length) := by
  induction Ms generalizing ctx with
  | nil =>
    have hpl : (md5_pending ctx).length = ctx.buffer_len := by
      unfold md5_pending
      rw [List.length_take]
      have := hinv.1
      have := hinv.2
      omega
    have hshort : (md5_pending ctx).length < 64 := by
      rw [hpl]
      exact hinv.1
    simp only [List.foldl_nil, List.flatten_nil, List.append_nil, List.length_nil, Nat.mul_zero,
      Nat.add_zero]
    refine ⟨hinv, ?_, (tail64_short _ hshort).symm, ?_, trivial⟩
    · unfold md5_compress
      rw [chunks64_short _ hshort]
      rfl
    · rw [Nat.mod_eq_of_lt hshort, hpl]
  | cons D Ms ih =>
    obtain ⟨iD, d1, d2, _, d4⟩ := md5_simd_update_spec ctx D hinv
    obtain ⟨i1, i2, i3, i4, i5⟩ := ih (md5_simd_update ctx D) iD
    simp only [List.foldl_cons, List.flatten_cons]
    refine ⟨i1, ?_, ?_, ?_, ?_⟩
    · rw [i2, d1, d2, ← List.append_assoc, ← md5_compress_append]
    · rw [i3, d2, ← List.append_assoc, ← tail64_append]
    · rw [i4, d2, ← List.append_assoc, ← length_mod_append]
    · rw [i5, d4, List.length_append]
      unfold u64
      omega

/-- C6: for a message `M` fed by any sequence of updates to a fresh context,
`md5_simd_final` feeds one `0x80` byte followed by `md5_zero_count |M|` zero
bytes, the least number that makes the length congruent to 56 mod 64, and then
the 8 little-endian bytes of `8 * |M|`; the chaining state is the block
transform folded over the 64-byte chunks of that padded message, which the
chunks cover exactly, `buffer_len` is 0 afterwards, and the digest written is
the byte image of that state. -/
theorem C6_md5_padding (Ms : List (List Nat)) :
    (md5_simd_final (Ms.foldl md5_simd_update md5_simd_create)).1 =
      md5_simd_update
        (md5_simd_update (Ms.foldl md5_simd_update md5_simd_create)
          (0x80 :: List.replicate (md5_zero_count Ms.flatten.length) 0))
        (le_bytes64 (8 * Ms.flatten.length)) ∧
    (Ms.flatten.length + 1 + md5_zero_count Ms.flatten.length) % 64 = 56 ∧
    (∀ j, j < md5_zero_count Ms.flatten.length → (Ms.flatten.length + 1 + j) % 64 ≠ 56) ∧
    (md5_simd_final (Ms.foldl md5_simd_update md5_simd_create)).1.state =
      (chunks64 (md5_padded Ms.flatten)).foldl md5_scalar_block md5_simd_create.state ∧
    (chunks64 (md5_padded Ms.flatten)).flatten = md5_padded Ms.flatten ∧
    (∀ b ∈ chunks64 (md5_padded Ms.flatten), b.length = 64) ∧
    (md5_simd_final (Ms.foldl md5_simd_update md5_simd_create)).1.buffer_len = 0 ∧
    (md5_simd_final (Ms.foldl md5_simd_update md5_simd_create)).2 =
      md5_output ((chunks64 (md5_padded Ms.flatten)).foldl md5_scalar_block
        md5_simd_create.state) := by
  obtain ⟨i0, s0, p0, l0, b0⟩ := md5_updates_spec Ms md5_simd_create md5_inv_create
  rw [md5_pending_create, List.nil_append] at s0 p0 l0
  have hbits : le_bytes64 (Ms.foldl md5_simd_update md5_simd_create).bitcount =
      le_bytes64 (8 * Ms.flatten.length) := by
    rw [← le_bytes64_u64, b0, le_bytes64_u64]
    show le_bytes64 (0 + 8 * Ms.flatten.length) = _
    rw [Nat.zero_add]
  have hpad : md5_pad.take (md5_final_pad_len (Ms.foldl md5_simd_update md5_simd_create)) =
      0x80 :: List.replicate (md5_zero_count Ms.flatten.length) 0 := by
    rw [md5_final_pad_len_eq _ _ l0, md5_pad_take _ (md5_zero_count_le _)]
  have hfin : (md5_simd_final (Ms.foldl md5_simd_update md5_simd_create)).1 =
      md5_simd_update
        (md5_simd_update (Ms.foldl md5_simd_update md5_simd_create)
          (0x80 :: List.replicate (md5_zero_count Ms.flatten.length) 0))
        (le_bytes64 (8 * Ms.flatten.length)) := by
    unfold md5_simd_final
    simp only [hbits, hpad]
  have hout : (md5_simd_final (Ms.foldl md5_simd_update md5_simd_create)).2 =
      md5_output (md5_simd_final (Ms.foldl md5_simd_update md5_simd_create)).1.state := rfl
  obtain ⟨hz1, hz2⟩ := md5_zero_count_spec Ms.flatten.length
  obtain ⟨i1, s1, p1, _, _⟩ := md5_simd_update_spec _
    (0x80 :: List.replicate (md5_zero_count Ms.flatten.length) 0) i0
  obtain ⟨_, s2, _, l2, _⟩ := md5_simd_update_spec _ (le_bytes64 (8 * Ms.flatten.length)) i1
  have hpadded : md5_padded Ms.flatten =
      (Ms.flatten ++ 0x80 :: List.replicate (md5_zero_count Ms.flatten.length) 0) ++
        le_bytes64 (8 * Ms.flatten.length) := by
    unfold md5_padded
    simp only [List.append_assoc, List.singleton_append]
  have hplen : (md5_padded Ms.flatten).length % 64 = 0 := by
    rw [hpadded, List.length_append, List.length_append, List.length_cons,
      List.length_replicate, le_bytes64_length]
    omega
  have hs1 : (md5_simd_update (Ms.foldl md5_simd_update md5_simd_create)
      (0x80 :: List.replicate (md5_zero_count Ms.flatten.length) 0)).state =
      md5_compress md5_simd_create.state
        (Ms.flatten ++ 0x80 :: List.replicate (md5_zero_count Ms.flatten.length) 0) := by
    rw [s1, s0, p0, ← md5_compress_append]
  have hp1 : md5_pending (md5_simd_update (Ms.foldl md5_simd_update md5_simd_create)
      (0x80 :: List.replicate (md5_zero_count Ms.flatten.length) 0)) =
      tail64 (Ms.flatten ++ 0x80 :: List.replicate (md5_zero_count Ms.flatten.length) 0) := by
    rw [p1, p0, ← tail64_append]
  have hstate : (md5_simd_final (Ms.foldl md5_simd_update md5_simd_create)).1.state =
      (chunks64 (md5_padded Ms.flatten)).foldl md5_scalar_block md5_simd_create.state := by
    rw [hfin, s2, hs1, hp1, ← md5_compress_append, ← hpadded]
    rfl
  have hchunks := md5_blocks_flatten ((md5_padded Ms.flatten).length / 64) (md5_padded Ms.flatten)
    (Nat.mul_div_le _ _)
  refine ⟨hfin, hz1, hz2, hstate, ?_, hchunks.2, ?_, ?_⟩
  · unfold chunks64
    rw [hchunks.1]
    exact List.take_of_length_le (by omega)
  · rw [hfin, l2, hp1, ← length_mod_append, ← hpadded, hplen]
  · rw [hout, hstate]

/-- C7 (the code does not meet it): the 32 bytes `hash_final` writes for
`HASH_BCRYPT` are `0x42` repeated, whatever the salt, the password and the
output buffer; two inputs never give different digests. -/
theorem C7_bcrypt_digest_is_constant (c c2 : hash_ctx_t) (X Y out out2 : List Nat) :
    ((hash_final (hash_update (hash_init c .HASH_BCRYPT) X) out).2).take 32 =
      List.replicate 32 0x42 ∧
    ((hash_final (hash_update (hash_init c .HASH_BCRYPT) X) out).2).take 32 =
      ((hash_final (hash_update (hash_init c2 .HASH_BCRYPT) Y) out2).2).take 32 := by
  rw [hash_final_bcrypt_written, hash_final_bcrypt_written]
  exact ⟨rfl, rfl⟩

/-- C8 (the code does not meet it): after `hash_init(HASH_SHA256)` the context
pointer is null, so `hash_update` does nothing, `hash_final` leaves the output
buffer as it was and `hash_verify` returns 0 for every target and length; for
`"abc"` a zeroed 32-byte buffer stays zero and the FIPS 180-4 digest is rejected. -/
theorem C8_sha256_is_a_stub (c : hash_ctx_t) (X out target : List Nat) (len : Nat) :
    (hash_init c .HASH_SHA256).context = none ∧
    (hash_final (hash_update (hash_init c .HASH_SHA256) X) out).2 = out ∧
    (hash_verify (hash_update (hash_init c .HASH_SHA256) X) target len).1 = 0 ∧
    (hash_final (hash_update (hash_init c .HASH_SHA256) msg_abc) (List.replicate 32 0)).2 ≠
      sha256_abc_expected ∧
    (hash_verify (hash_update (hash_init c .HASH_SHA256) msg_abc) sha256_abc_expected 32).1 = 0 := by
  rw [hash_update_sha256, hash_update_sha256]
  refine ⟨?_, ?_, ?_, ?_, ?_⟩
  · simp [hash_init, hash_ops_table, sha256_init]
  · rfl
  · rfl
  · show List.replicate 32 0 ≠ sha256_abc_expected
    decide
  · rfl

/-! ### Scheduler -/

theorem scheduler_submit_full (s : scheduler) (t : sched_task_t)
    (h : (MAX_TASKS : Int) ≤ s.task_count) : scheduler_submit s t = s := by
  unfold scheduler_submit
  rw [if_neg (not_lt.mpr h)]

theorem scheduler_submit_count (s : scheduler) (t : sched_task_t) :
    (scheduler_submit s t).task_count =
      if s.task_count < (MAX_TASKS : Int) then s.task_count + 1 else s.task_count := by
  unfold scheduler_submit
  split <;> rfl

theorem scheduler_submit_bounds (s : scheduler) (t : sched_task_t)
    (h : 0 ≤ s.task_count ∧ s.task_count ≤ (MAX_TASKS : Int)) :
    0 ≤ (scheduler_submit s t).task_count ∧
      (scheduler_submit s t).task_count ≤ (MAX_TASKS : Int) := by
  rw [scheduler_submit_count]
  split <;> omega

theorem scheduler_thread_tick_count (s : scheduler) (now : Int) :
    (scheduler_thread_tick s now).1.task_count = 0 := by
  unfold scheduler_thread_tick
  simp only []
  split <;> rfl

theorem sched_step_bounds (s s2 : scheduler) (hstep : sched_step s s2)
    (h : 0 ≤ s.task_count ∧ s.task_count ≤ (MAX_TASKS : Int)) :
    0 ≤ s2.task_count ∧ s2.task_count ≤ (MAX_TASKS : Int) := by
  cases hstep with
  | submit t => exact scheduler_submit_bounds s t h
  | resume path => exact ⟨le_refl _, Int.ofNat_nonneg _⟩
  | checkpoint path => exact h
  | register cb => exact h
  | tick now =>
    rw [scheduler_thread_tick_count]
    exact ⟨le_refl _, Int.ofNat_nonneg _⟩

theorem sched_reachable_bounds (s : scheduler) (hs : sched_reachable s) :
    0 ≤ s.task_count ∧ s.task_count ≤ (MAX_TASKS : Int) := by
  induction hs with
  | init now => exact ⟨le_refl _, Int.ofNat_nonneg _⟩
  | step s s2 _ hstep ih => exact sched_step_bounds s s2 hstep ih

theorem foldl_submit_count (ts : List sched_task_t) (s : scheduler)
    (h : 0 ≤ s.task_count ∧ s.task_count ≤ (MAX_TASKS : Int)) :
    (ts.foldl scheduler_submit s).task_count =
      min (s.task_count + ts.length) (MAX_TASKS : Int) := by
  induction ts generalizing s with
  | nil => simp [h.2]
  | cons t ts ih =>
    rw [List.foldl_cons, ih _ (scheduler_submit_bounds s t h), scheduler_submit_count]
    rw [List.length_cons]
    push_cast
    split <;> omega

/-- C9, as stated, fails: on a queue that holds `MAX_TASKS = 1024` tasks,
`scheduler_submit` of a further task changes nothing, the task is not in the
queue afterwards, and the value handed back is the one a successful submit hands
back (the function is `void`): the caller can observe no `CapacityExceeded`. -/
theorem C9_full_submit_is_silent :
    full_scheduler.task_count = MAX_TASKS ∧
    scheduler_submit full_scheduler extra_task = full_scheduler ∧
    extra_task ∉ scheduler_queue (scheduler_submit full_scheduler extra_task) ∧
    (scheduler_submit (scheduler_init 0) extra_task).task_count = 1 ∧
    scheduler_submit_return full_scheduler extra_task =
      scheduler_submit_return (scheduler_init 0) extra_task := by
  have hfull : scheduler_submit full_scheduler extra_task = full_scheduler :=
    scheduler_submit_full _ _ (by simp [full_scheduler, MAX_TASKS])
  refine ⟨by simp [full_scheduler, MAX_TASKS], hfull, ?_, ?_, rfl⟩
  · rw [hfull]
    intro hmem
    have hmem2 := List.mem_of_mem_take hmem
    simp [full_scheduler, extra_task] at hmem2
  · simp [scheduler_submit_count, scheduler_init, MAX_TASKS]

/-- C9, amended: when the queue already holds `MAX_TASKS = 1024` tasks (or more),
`scheduler_submit` leaves the scheduler, and so the queue, unchanged; the task
is dropped, and the value handed back is the same as for every other call, so
it signals nothing. -/
theorem C9_full_submit_unchanged (s s2 : scheduler) (t t2 : sched_task_t)
    (h : (MAX_TASKS : Int) ≤ s.task_count) :
    scheduler_submit s t = s ∧
    scheduler_queue (scheduler_submit s t) = scheduler_queue s ∧
    scheduler_submit_return s t = scheduler_submit_return s2 t2 := by
  rw [scheduler_submit_full s t h]
  exact ⟨rfl, rfl, rfl⟩

/-- C9 amended, at the full queue of 1024 tasks and a further task. -/
theorem C9_full_submit_unchanged_witness :
    scheduler_submit full_scheduler extra_task = full_scheduler :=
  (C9_full_submit_unchanged full_scheduler (scheduler_init 0) extra_task extra_task
    (by simp [full_scheduler, MAX_TASKS])).1

/-- C10: in every scheduler state reachable from `scheduler_init` by
`scheduler_submit`, `scheduler_resume`, `scheduler_checkpoint`,
`scheduler_register_ai_hook` and loop iterations, `0 <= task_count <= 1024`; and
`MAX_TASKS + 1` consecutive submits after `scheduler_init` leave
`task_count = MAX_TASKS`. -/
theorem C10_capacity_invariant (s : scheduler) (hs : sched_reachable s)
    (now : Int) (ts : List sched_task_t) (hts : ts.length = MAX_TASKS + 1) :
    (0 ≤ s.task_count ∧ s.task_count ≤ 1024) ∧
    (ts.foldl scheduler_submit (scheduler_init now)).task_count = MAX_TASKS := by
  constructor
  · have h := sched_reachable_bounds s hs
    simpa [MAX_TASKS] using h
  · rw [foldl_submit_count _ _ ⟨le_refl _, Int.ofNat_nonneg _⟩, hts]
    simp [scheduler_init, MAX_TASKS]

/-- C10, at the state after one submit and one loop iteration, and at 1025
submits of the same task. -/
theorem C10_capacity_invariant_witness :
    (0 ≤ (scheduler_thread_tick (scheduler_submit (scheduler_init 0) extra_task) 9).1.task_count ∧
      (scheduler_thread_tick (scheduler_submit (scheduler_init 0) extra_task) 9).1.task_count
        ≤ 1024) ∧
    ((List.replicate 1025 extra_task).foldl scheduler_submit (scheduler_init 0)).task_count
      = MAX_TASKS :=
  C10_capacity_invariant _
    (.step _ _ (.step _ _ (.init 0) (.submit _ extra_task)) (.tick _ 9))
    0 (List.replicate 1025 extra_task) (by simp [MAX_TASKS])

/-! ### Scheduler: the task array -/

theorem take_set_self (l : List sched_task_t) (n : Nat) (t : sched_task_t) :
    (l.set n t).take n = l.take n := by
  induction l generalizing n with
  | nil => simp
  | cons a l ih =>
    cases n with
    | zero => simp
    | succ n => simp [ih]

theorem take_succ_set (l : List sched_task_t) (n : Nat) (t : sched_task_t) (h : n < l.length) :
    (l.set n t).take (n + 1) = l.take n ++ [t] := by
  rw [List.take_succ, take_set_self]
  simp [List.getElem?_set, h]

theorem scheduler_queue_length (s : scheduler) (hwf : sched_wf s) :
    (scheduler_queue s).length = s.task_count.toNat := by
  obtain ⟨h1, h2, h3⟩ := hwf
  unfold scheduler_queue
  rw [List.length_take, h1]
  have : s.task_count.toNat ≤ MAX_TASKS := by omega
  omega

theorem sched_wf_init (now : Int) : sched_wf (scheduler_init now) := by
  unfold sched_wf scheduler_init
  exact ⟨List.length_replicate _ _, le_refl _, Int.ofNat_nonneg _⟩

theorem scheduler_queue_init (now : Int) : scheduler_queue (scheduler_init now) = [] := by
  simp [scheduler_queue, scheduler_init]

/-- A submit below capacity appends the task to the queue. -/
theorem scheduler_submit_queue (s : scheduler) (t : sched_task_t) (hwf : sched_wf s)
    (hlt : s.task_count < (MAX_TASKS : Int)) :
    sched_wf (scheduler_submit s t) ∧
    scheduler_queue (scheduler_submit s t) = scheduler_queue s ++ [t] := by
  obtain ⟨h1, h2, h3⟩ := hwf
  unfold scheduler_submit
  rw [if_pos hlt]
  unfold sched_wf scheduler_queue
  simp only [List.length_set]
  refine ⟨⟨h1, by omega, by omega⟩, ?_⟩
  have e : (s.task_count + 1).toNat = s.task_count.toNat + 1 := by omega
  rw [e]
  exact take_succ_set _ _ _ (by rw [h1]; omega)

theorem sched_wf_submit (s : scheduler) (t : sched_task_t) (hwf : sched_wf s) :
    sched_wf (scheduler_submit s t) := by
  by_cases hlt : s.task_count < (MAX_TASKS : Int)
  · exact (scheduler_submit_queue s t hwf hlt).1
  · rw [scheduler_submit_full s t (not_lt.mp hlt)]
    exact hwf

/-- The queue after a sequence of submits: the tasks in order, cut at capacity. -/
theorem foldl_submit_queue (ts : List sched_task_t) (s : scheduler) (hwf : sched_wf s) :
    sched_wf (ts.foldl scheduler_submit s) ∧
    scheduler_queue (ts.foldl scheduler_submit s) = (scheduler_queue s ++ ts).take MAX_TASKS := by
  induction ts generalizing s with
  | nil =>
    refine ⟨hwf, ?_⟩
    rw [List.foldl_nil, List.append_nil]
    refine (List.take_of_length_le ?_).symm
    rw [scheduler_queue_length s hwf]
    have := hwf.2.2
    omega
  | cons t ts ih =>
    rw [List.foldl_cons]
    by_cases hlt : s.task_count < (MAX_TASKS : Int)
    · obtain ⟨w1, q1⟩ := scheduler_submit_queue s t hwf hlt
      obtain ⟨w2, q2⟩ := ih _ w1
      refine ⟨w2, ?_⟩
      rw [q2, q1, List.append_assoc]
      rfl
    · have hfull := scheduler_submit_full s t (not_lt.mp hlt)
      rw [hfull]
      obtain ⟨w2, q2⟩ := ih s hwf
      refine ⟨w2, ?_⟩
      rw [q2]
      have hl : (scheduler_queue s).length = MAX_TASKS := by
        rw [scheduler_queue_length s hwf]
        have := hwf.2.2
        omega
      rw [List.take_append_of_le_length (le_of_eq hl.symm),
        List.take_append_of_le_length (le_of_eq hl.symm)]


/-- C11: for a scheduler with `task_count = n < 1024`, `scheduler_submit` inserts
at the tail: afterwards `task_count = n + 1`, the entry at index `n` equals the
task in all five fields, the entries at indices below `n` are unchanged, and
the queue is the old queue followed by the task. -/
theorem C11_submit_inserts_at_tail (s : scheduler) (t : sched_task_t) (n : Nat)
    (hlen : s.tasks.length = MAX_TASKS) (hn : s.task_count = n) (hlt : n < MAX_TASKS) :
    (scheduler_submit s t).task_count = n + 1 ∧
    (scheduler_submit s t).tasks[n]? = some t ∧
    ((scheduler_submit s t).tasks.getD n zero_task).device = t.device ∧
    ((scheduler_submit s t).tasks.getD n zero_task).task_data = t.task_data ∧
    ((scheduler_submit s t).tasks.getD n zero_task).task_size = t.task_size ∧
    ((scheduler_submit s t).tasks.getD n zero_task).priority = t.priority ∧
    ((scheduler_submit s t).tasks.getD n zero_task).task_id = t.task_id ∧
    (∀ i, i < n → (scheduler_submit s t).tasks[i]? = s.tasks[i]?) ∧
    scheduler_queue (scheduler_submit s t) = scheduler_queue s ++ [t] := by
  have hlt2 : s.task_count < (MAX_TASKS : Int) := by
    rw [hn]
    exact_mod_cast hlt
  have hwf : sched_wf s := ⟨hlen, by omega, le_of_lt hlt2⟩
  have hq := (scheduler_submit_queue s t hwf hlt2).2
  have htasks : (scheduler_submit s t).tasks = s.tasks.set n t := by
    unfold scheduler_submit
    rw [if_pos hlt2, hn]
    rfl
  have hget : (scheduler_submit s t).tasks[n]? = some t := by
    rw [htasks]
    simp [List.getElem?_set, hlen, hlt]
  have hgetD : (scheduler_submit s t).tasks.getD n zero_task = t := by
    rw [List.getD_eq_getElem?_getD, hget]
    rfl
  refine ⟨?_, hget, ?_, ?_, ?_, ?_, ?_, ?_, hq⟩
  · rw [scheduler_submit_count, if_pos hlt2, hn]
  · rw [hgetD]
  · rw [hgetD]
  · rw [hgetD]
  · rw [hgetD]
  · rw [hgetD]
  · intro i hi
    rw [htasks, List.getElem?_set_ne (by omega)]

/-- C11, at the fresh scheduler (`n = 0`) and a task. -/
theorem C11_submit_inserts_at_tail_witness :
    scheduler_queue (scheduler_submit (scheduler_init 0) extra_task) = [extra_task] :=
  (C11_submit_inserts_at_tail (scheduler_init 0) extra_task 0
    (List.length_replicate _ _) rfl (by decide)).2.2.2.2.2.2.2.2

/-- C12 (the code does not meet it): after submitting tasks 1, 2, 3, writing a
checkpoint, submitting tasks 4, 5 and calling `scheduler_resume` on that file,
the queue is empty and not the three tasks the file holds. -/
theorem C12_resume_does_not_load :
    scheduler_queue ([task_with_id 1, task_with_id 2, task_with_id 3].foldl scheduler_submit
      (scheduler_init 0)) = [task_with_id 1, task_with_id 2, task_with_id 3] ∧
    scheduler_checkpoint_to lp64_task_image no_files
      ([task_with_id 1, task_with_id 2, task_with_id 3].foldl scheduler_submit (scheduler_init 0))
      "jobs.chkpt" "jobs.chkpt" =
      some (int_image 3 ++
        [task_with_id 1, task_with_id 2, task_with_id 3].flatMap lp64_task_image) ∧
    scheduler_queue
      (scheduler_resume_from
        (scheduler_checkpoint_to lp64_task_image no_files
          ([task_with_id 1, task_with_id 2, task_with_id 3].foldl scheduler_submit
            (scheduler_init 0)) "jobs.chkpt")
        ([task_with_id 4, task_with_id 5].foldl scheduler_submit
          ([task_with_id 1, task_with_id 2, task_with_id 3].foldl scheduler_submit
            (scheduler_init 0)))
        "jobs.chkpt") = [] := by
  have h3 := foldl_submit_queue [task_with_id 1, task_with_id 2, task_with_id 3]
    (scheduler_init 0) (sched_wf_init 0)
  rw [scheduler_queue_init] at h3
  have hq : scheduler_queue ([task_with_id 1, task_with_id 2, task_with_id 3].foldl
      scheduler_submit (scheduler_init 0)) =
      [task_with_id 1, task_with_id 2, task_with_id 3] := by
    rw [h3.2]
    rfl
  have hc : ([task_with_id 1, task_with_id 2, task_with_id 3].foldl
      scheduler_submit (scheduler_init 0)).task_count = 3 := by
    rw [foldl_submit_count _ _ ⟨le_refl _, Int.ofNat_nonneg _⟩]
    rfl
  refine ⟨hq, ?_, ?_⟩
  · unfold scheduler_checkpoint_to scheduler_checkpoint scheduler_do_checkpoint checkpoint_bytes
    unfold scheduler_queue at hq
    rw [hc] at hq
    simp only [if_true, hc]
    rw [hq]
  · simp [scheduler_resume_from, scheduler_resume, scheduler_queue]

/-- C13: `scheduler_resume` never merges: two schedulers resumed from the same
checkpoint file have equal queue contents afterwards, and no task queued before
the resume is in the queue after it (the queue after a resume is empty). -/
theorem C13_resume_replaces (files : String → Option (List Nat)) (s1 s2 : scheduler)
    (path : String) (t : sched_task_t) :
    scheduler_queue (scheduler_resume_from files s1 path) =
      scheduler_queue (scheduler_resume_from files s2 path) ∧
    t ∉ scheduler_queue (scheduler_resume_from files s1 path) := by
  have h : ∀ s, scheduler_queue (scheduler_resume_from files s path) = [] := by
    intro s
    simp [scheduler_resume_from, scheduler_resume, scheduler_queue]
  rw [h s1, h s2]
  exact ⟨rfl, List.not_mem_nil t⟩


/-! ### Checkpoint bytes -/

theorem le_bytes32_length (v : Nat) : (le_bytes32 v).length = 4 := by
  simp [le_bytes32]

theorem int_image_length (v : Int) : (int_image v).length = 4 :=
  le_bytes32_length _

theorem flatMap_length_const (image : sched_task_t → List Nat) (size : Nat)
    (himg : ∀ t, (image t).length = size) (l : List sched_task_t) :
    (l.flatMap image).length = size * l.length := by
  induction l with
  | nil => simp
  | cons a l ih =>
    rw [List.flatMap_cons, List.length_append, ih, himg, List.length_cons]
    ring

theorem flatMap_slice (image : sched_task_t → List Nat) (size : Nat)
    (himg : ∀ t, (image t).length = size) (l : List sched_task_t) (i : Nat)
    (hi : i < l.length) :
    ((l.flatMap image).drop (size * i)).take size = image (l.getD i zero_task) := by
  induction l generalizing i with
  | nil => simp at hi
  | cons a l ih =>
    rw [List.flatMap_cons]
    cases i with
    | zero =>
      rw [Nat.mul_zero, List.drop_zero, List.take_append_of_le_length (le_of_eq (himg a).symm)]
      rw [List.take_of_length_le (le_of_eq (himg a))]
      rfl
    | succ i =>
      have e : size * (i + 1) = (image a).length + size * i := by
        rw [himg a]
        ring
      rw [e, List.drop_append, ih i (by simpa using hi)]
      rfl

/-- C15, as stated, fails: for the fresh scheduler (no queued task) the file
written by `scheduler_checkpoint` is the four bytes of the `int` 0; the layout
of the claim starts with a `u32 format_version` and a `u32 task_count` and has
at least eight bytes, so no version makes the two equal. -/
theorem C15_no_format_version :
    checkpoint_bytes lp64_task_image (scheduler_checkpoint (scheduler_init 0) "scheduler.chkpt").2
      = [0, 0, 0, 0] ∧
    ¬ ∃ version, spec_checkpoint_layout version [] =
      checkpoint_bytes lp64_task_image
        (scheduler_checkpoint (scheduler_init 0) "scheduler.chkpt").2 := by
  have h : checkpoint_bytes lp64_task_image
      (scheduler_checkpoint (scheduler_init 0) "scheduler.chkpt").2 = [0, 0, 0, 0] := by
    decide
  refine ⟨h, ?_⟩
  rw [h]
  rintro ⟨v, hv⟩
  have hl := congrArg List.length hv
  simp [spec_checkpoint_layout, le_bytes32_length] at hl

/-- C15, amended: for a scheduler with `n` queued tasks the bytes written by
`scheduler_checkpoint` are the four little-endian bytes of the `int` task count
`n` followed by the memory images of the `n` queued `sched_task_t` entries in
queue order, `size` bytes each: `4 + size * n` bytes, record `i` at offset
`4 + size * i`. There is no format version and no payload. -/
theorem C15_checkpoint_is_raw_image (task_image : sched_task_t → List Nat) (size : Nat)
    (himg : ∀ t, (task_image t).length = size) (s : scheduler) (path : String) (n : Nat)
    (hn : s.task_count = n) (hlen : n ≤ s.tasks.length) :
    checkpoint_bytes task_image (scheduler_checkpoint s path).2 =
      int_image n ++ (scheduler_queue s).flatMap task_image ∧
    (checkpoint_bytes task_image (scheduler_checkpoint s path).2).length = 4 + size * n ∧
    (checkpoint_bytes task_image (scheduler_checkpoint s path).2).take 4 =
      le_bytes32 (n % 4294967296) ∧
    ∀ i, i < n →
      ((checkpoint_bytes task_image (scheduler_checkpoint s path).2).drop (4 + size * i)).take size
        = task_image (s.tasks.getD i zero_task) := by
  have hb : checkpoint_bytes task_image (scheduler_checkpoint s path).2 =
      int_image n ++ (scheduler_queue s).flatMap task_image := by
    unfold checkpoint_bytes scheduler_checkpoint scheduler_do_checkpoint scheduler_queue
    simp only [hn]
  have hq : (scheduler_queue s).length = n := by
    unfold scheduler_queue
    rw [hn, List.length_take]
    simp only [Int.toNat_ofNat]
    omega
  have hi4 : (int_image (n : Int)).length = 4 := int_image_length _
  rw [hb]
  refine ⟨rfl, ?_, ?_, ?_⟩
  · rw [List.length_append, hi4, flatMap_length_const _ size himg, hq]
  · rw [List.take_append_of_le_length (le_of_eq hi4.symm),
      List.take_of_length_le (le_of_eq hi4)]
    have e2 : ((n : Int) % 4294967296).toNat = n % 4294967296 := by omega
    unfold int_image
    rw [e2]
  · intro i hi
    have e : 4 + size * i = (int_image (n : Int)).length + size * i := by rw [hi4]
    rw [e, List.drop_append, flatMap_slice _ size himg _ i (by rw [hq]; exact hi)]
    congr 1
    unfold scheduler_queue
    rw [hn]
    simp only [Int.toNat_ofNat]
    rw [List.getD_eq_getElem?_getD, List.getD_eq_getElem?_getD, List.getElem?_take]
    simp [hi]

theorem lp64_task_image_length (t : sched_task_t) : (lp64_task_image t).length = 32 := by
  simp [lp64_task_image, le_bytes32_length, int_image_length, le_bytes64_length]

/-- C15 amended, at the x86-64 struct image and the scheduler holding one task. -/
theorem C15_checkpoint_is_raw_image_witness :
    (checkpoint_bytes lp64_task_image
      (scheduler_checkpoint (scheduler_submit (scheduler_init 0) extra_task)
        "scheduler.chkpt").2).length = 4 + 32 * 1 :=
  (C15_checkpoint_is_raw_image lp64_task_image 32 lp64_task_image_length
    (scheduler_submit (scheduler_init 0) extra_task) "scheduler.chkpt" 1
    (by decide) (by decide)).2.1


/-- C14, as stated, fails: for the 36-byte checkpoint of a scheduler holding one
task, cut by one byte, `scheduler_resume` gives the same scheduler and hands
back the same value as on the whole file: no `CorruptCheckpoint` is reported. -/
theorem C14_truncated_resume_reports_nothing :
    (checkpoint_bytes lp64_task_image
      (scheduler_checkpoint (scheduler_submit (scheduler_init 0) extra_task)
        "scheduler.chkpt").2).length = 36 ∧
    scheduler_resume_from
      (fun _ => some ((checkpoint_bytes lp64_task_image
        (scheduler_checkpoint (scheduler_submit (scheduler_init 0) extra_task)
          "scheduler.chkpt").2).take 35))
      (scheduler_init 0) "scheduler.chkpt" =
    scheduler_resume_from
      (fun _ => some (checkpoint_bytes lp64_task_image
        (scheduler_checkpoint (scheduler_submit (scheduler_init 0) extra_task)
          "scheduler.chkpt").2))
      (scheduler_init 0) "scheduler.chkpt" ∧
    scheduler_resume_return (scheduler_init 0) "scheduler.chkpt" = () := by
  refine ⟨?_, rfl, rfl⟩
  decide


/-- C14, amended: on a checkpoint string truncated by any number of bytes, as on
any stored bytes, `scheduler_resume` hands back no result (the function is
`void`, no `CorruptCheckpoint` is reported), and it does not replace the queue
with data read past the end of the buffer: the task array is left as it was,
and the outcome is the same whatever the file holds. -/
theorem C14_resume_ignores_file_bytes (files files2 : String → Option (List Nat))
    (s : scheduler) (path : String) :
    scheduler_resume_return s path = () ∧
    scheduler_resume_from files s path = scheduler_resume_from files2 s path ∧
    (scheduler_resume_from files s path).tasks = s.tasks :=
  ⟨rfl, rfl, rfl⟩

/-- C16, as stated, fails: a queued task for which the dispatch produced no
outcome is not in the queue after the loop iteration. -/
theorem C16_tick_drops_unfinished_task :
    extra_task ∈ scheduler_queue (scheduler_submit (scheduler_init 0) extra_task) ∧
    scheduler_dispatch extra_task = none ∧
    extra_task ∉
      scheduler_queue (scheduler_thread_tick (scheduler_submit (scheduler_init 0) extra_task) 1).1 := by
  have hq : scheduler_queue (scheduler_submit (scheduler_init 0) extra_task) = [extra_task] := by
    rw [(scheduler_submit_queue _ _ (sched_wf_init 0) (by decide)).2, scheduler_queue_init]
    rfl
  refine ⟨by rw [hq]; exact List.mem_singleton.mpr rfl, rfl, ?_⟩
  unfold scheduler_queue
  rw [scheduler_thread_tick_count]
  exact List.not_mem_nil _

/-- C16, amended: a loop iteration clears the queue unconditionally. Whatever
tasks were queued, and although the dispatch produces no outcome for any task,
`task_count` is 0 and the queue is empty after the iteration. -/
theorem C16_tick_clears_queue (s : scheduler) (now : Int) (t : sched_task_t) :
    (scheduler_thread_tick s now).1.task_count = 0 ∧
    scheduler_queue (scheduler_thread_tick s now).1 = [] ∧
    scheduler_dispatch t = none := by
  refine ⟨scheduler_thread_tick_count s now, ?_, ?_⟩
  · unfold scheduler_queue
    rw [scheduler_thread_tick_count]
    rfl
  · unfold scheduler_dispatch
    cases t.device <;> rfl

/-- C17, as stated, fails: submitting the same task twice after `scheduler_init`
queues two tasks with the same `task_id`. -/
theorem C17_duplicate_ids_are_queued :
    (scheduler_queue ([extra_task, extra_task].foldl scheduler_submit (scheduler_init 0))).map
      (fun t => t.task_id) = [5000, 5000] ∧
    ¬ ((scheduler_queue ([extra_task, extra_task].foldl scheduler_submit (scheduler_init 0))).map
      (fun t => t.task_id)).Nodup := by
  have h := (foldl_submit_queue [extra_task, extra_task] (scheduler_init 0) (sched_wf_init 0)).2
  rw [scheduler_queue_init] at h
  rw [h]
  decide

/-- C17, amended: `scheduler_submit` stores the `task_id` it is given without
checking it. In the state reached from `scheduler_init` by submitting tasks
whose ids are pairwise distinct, the queue is those tasks in order (cut at
`MAX_TASKS`) and the `task_id` fields of the queued tasks are pairwise distinct. -/
theorem C17_distinct_ids_stay_distinct (now : Int) (ts : List sched_task_t)
    (hts : (ts.map (fun t => t.task_id)).Nodup) :
    scheduler_queue (ts.foldl scheduler_submit (scheduler_init now)) = ts.take MAX_TASKS ∧
    ((scheduler_queue (ts.foldl scheduler_submit (scheduler_init now))).map
      (fun t => t.task_id)).Nodup := by
  have h := (foldl_submit_queue ts (scheduler_init now) (sched_wf_init now)).2
  rw [scheduler_queue_init, List.nil_append] at h
  rw [h]
  refine ⟨rfl, ?_⟩
  rw [List.map_take]
  exact List.Nodup.sublist (List.take_sublist _ _) hts

/-- C17 amended, at the tasks with ids 1 and 2. -/
theorem C17_distinct_ids_stay_distinct_witness :
    ((scheduler_queue ([task_with_id 1, task_with_id 2].foldl scheduler_submit
      (scheduler_init 0))).map (fun t => t.task_id)).Nodup :=
  (C17_distinct_ids_stay_distinct 0 [task_with_id 1, task_with_id 2] (by decide)).2

/-! ### Bcrypt: verify after final, repeated updates -/

theorem hash_final_bcrypt_ctx (c : hash_ctx_t) (X out : List Nat) :
    (hash_final (hash_update (hash_init c .HASH_BCRYPT) X) out).1 =
      { type := .HASH_BCRYPT,
        context := some (.bcrypt (bcrypt_cpu_final (bcrypt_cpu_update bcrypt_cpu_create X)).1) } := by
  rw [hash_update_bcrypt]
  simp [hash_final, hash_ops_table, bcrypt_final]

/-- C18: for every input `X`, after `hash_init(HASH_BCRYPT)`, `hash_update(X)` and
`hash_final` writing the digest `d`, `hash_verify` on the same context with
target `d` and len 32 returns 1. -/
theorem C18_bcrypt_verify_after_final (c : hash_ctx_t) (X out : List Nat) :
    (hash_verify (hash_final (hash_update (hash_init c .HASH_BCRYPT) X) out).1
      (hash_final (hash_update (hash_init c .HASH_BCRYPT) X) out).2 32).1 = 1 := by
  have hw := hash_final_bcrypt_written c X out
  rw [hash_final_bcrypt_ctx]
  simp only [hash_verify, hash_ops_table, bcrypt_verify]
  rw [bcrypt_cpu_verify_result, if_pos ⟨rfl, hw⟩]


/-- C19, as stated, fails: for `A = [1]` and `B = [2]`, two updates leave
`salt_len = 1` and the salt byte 2, one update with `A ++ B` leaves
`salt_len = 2` and the salt bytes 1, 2. -/
theorem C19_second_update_overwrites :
    (bcrypt_cpu_update (bcrypt_cpu_update bcrypt_cpu_create [1]) [2]).salt_len = 1 ∧
    (bcrypt_cpu_update (bcrypt_cpu_update bcrypt_cpu_create [1]) [2]).salt.take 2 = [2, 0] ∧
    (bcrypt_cpu_update bcrypt_cpu_create ([1] ++ [2])).salt_len = 2 ∧
    (bcrypt_cpu_update bcrypt_cpu_create ([1] ++ [2])).salt.take 2 = [1, 2] := by
  decide

theorem memcpy_zero_head (dst src : List Nat) (n : Nat) (h : n ≤ src.length) :
    (memcpy dst 0 src n).take n = src.take n := by
  have ht := memcpy_take dst src 0 n (Nat.zero_le _) h
  rw [Nat.zero_add, List.take_zero, List.nil_append] at ht
  exact ht

/-- C19, amended: `bcrypt_cpu_update` does not accumulate. For every context
and non-empty `B`, `bcrypt_cpu_update(A)` followed by `bcrypt_cpu_update(B)`
leaves the same `salt_len`, `password_len`, salt bytes and password bytes in
use as `bcrypt_cpu_update(B)` alone: the last call replaces what the earlier
one stored. -/
theorem C19_last_update_wins (ctx : bcrypt_cpu_ctx) (A B : List Nat) (hB : B ≠ []) :
    (bcrypt_cpu_update (bcrypt_cpu_update ctx A) B).salt_len =
      (bcrypt_cpu_update ctx B).salt_len ∧
    (bcrypt_cpu_update (bcrypt_cpu_update ctx A) B).password_len =
      (bcrypt_cpu_update ctx B).password_len ∧
    (bcrypt_cpu_update (bcrypt_cpu_update ctx A) B).salt.take
        (bcrypt_cpu_update (bcrypt_cpu_update ctx A) B).salt_len =
      (bcrypt_cpu_update ctx B).salt.take (bcrypt_cpu_update ctx B).salt_len ∧
    (bcrypt_cpu_update (bcrypt_cpu_update ctx A) B).password.take
        (bcrypt_cpu_update (bcrypt_cpu_update ctx A) B).password_len =
      (bcrypt_cpu_update ctx B).password.take (bcrypt_cpu_update ctx B).password_len := by
  have hlen : B.length ≠ 0 := fun h => hB (List.length_eq_zero.mp h)
  have key : ∀ c : bcrypt_cpu_ctx,
      (bcrypt_cpu_update c B).salt_len = min B.length 16 ∧
      (bcrypt_cpu_update c B).password_len = B.length - 16 ∧
      (bcrypt_cpu_update c B).salt.take (bcrypt_cpu_update c B).salt_len = B.take 16 ∧
      (bcrypt_cpu_update c B).password.take (bcrypt_cpu_update c B).password_len =
        B.drop 16 := by
    intro c
    unfold bcrypt_cpu_update
    simp only [hlen, if_false]
    by_cases h16 : B.length > 16
    · simp only [h16, if_true]
      refine ⟨by omega, trivial, ?_, ?_⟩
      · exact memcpy_zero_head _ _ _ (by omega)
      · rw [memcpy_zero_head _ _ _ (by rw [List.length_drop])]
        exact List.take_of_length_le (by rw [List.length_drop])
    · simp only [h16, if_false]
      refine ⟨by omega, by omega, ?_, ?_⟩
      · rw [memcpy_zero_head _ _ _ (le_refl _), List.take_length]
        exact (List.take_of_length_le (by omega)).symm
      · rw [List.take_zero]
        exact (List.drop_of_length_le (by omega)).symm
  obtain ⟨a1, a2, a3, a4⟩ := key (bcrypt_cpu_update ctx A)
  obtain ⟨b1, b2, b3, b4⟩ := key ctx
  exact ⟨a1.trans b1.symm, a2.trans b2.symm, a3.trans b3.symm, a4.trans b4.symm⟩

/-- C19 amended, at the fresh context with `A = [1]` and `B = [2]`. -/
theorem C19_last_update_wins_witness :
    (bcrypt_cpu_update (bcrypt_cpu_update bcrypt_cpu_create [1]) [2]).salt_len =
      (bcrypt_cpu_update bcrypt_cpu_create [2]).salt_len :=
  (C19_last_update_wins bcrypt_cpu_create [1] [2] (by decide)).1


/-! ### Classifier output -/

/-- One line read by the sampling loop moves the position forward. -/
theorem detect_line_advances (buf : List Nat) (p : Nat) (hp : p < buf.length) :
    p < (if buf.getD (p + (((buf.drop p).takeWhile (fun c => c ≠ 10)).take 255).length) 0 = 10
          then p + (((buf.drop p).takeWhile (fun c => c ≠ 10)).take 255).length + 1
          else p + (((buf.drop p).takeWhile (fun c => c ≠ 10)).take 255).length) := by
  by_cases hl : (((buf.drop p).takeWhile (fun c => c ≠ 10)).take 255).length = 0
  · rw [hl, Nat.add_zero]
    have hnil : (buf.drop p).takeWhile (fun c => c ≠ 10) = [] := by
      have h1 := List.length_eq_zero.mp hl
      cases htw : (buf.drop p).takeWhile (fun c => c ≠ 10) with
      | nil => rfl
      | cons a l =>
        rw [htw] at h1
        simp at h1
    have hd : buf.drop p = buf.getD p 0 :: buf.drop (p + 1) := by
      rw [List.getD_eq_getElem?_getD, List.getElem?_eq_getElem hp]
      exact List.drop_eq_getElem_cons hp
    rw [hd] at hnil
    have h10 : buf.getD p 0 = 10 := by
      by_contra hne
      rw [List.takeWhile_cons] at hnil
      simp only [ne_eq, hne, not_false_eq_true, decide_True, if_true] at hnil
      exact List.cons_ne_nil _ _ hnil
    rw [if_pos h10]
    exact Nat.lt_succ_self p
  · split <;> omega

theorem detect_loop_fuel (m : List Nat → String → Bool) (buf : List Nat) (npat : Nat)
    (fuel : Nat) (p lines : Nat) (scores : List Int) (h : buf.length - p ≤ fuel) :
    detect_loop m buf npat (fuel + 1) p lines scores = detect_loop m buf npat fuel p lines scores := by
  induction fuel generalizing p lines scores with
  | zero =>
    have hp : ¬ (p < buf.length ∧ lines < MAX_SAMPLE_LINES) := fun hc => by omega
    simp only [detect_loop, hp, if_false]
  | succ fuel ih =>
    rw [detect_loop]
    conv => rhs; rw [detect_loop]
    by_cases hc : p < buf.length ∧ lines < MAX_SAMPLE_LINES
    · have hadv := detect_line_advances buf p hc.1
      simp only [hc, and_self, if_true]
      split
      · exact ih _ _ _ (by omega)
      · exact ih _ _ _ (by omega)
    · simp only [hc, if_false]

/-- More iterations than `len + 1` do not change the scores: the sampling loop
ends on its own condition. -/
theorem detect_scores_fuel (m : List Nat → String → Bool) (buf : List Nat) (extra : Nat) :
    detect_loop m buf hash_patterns.length (buf.length + 1 + extra) 0 0
      (List.replicate MAX_HASH_TYPES 0) = detect_scores m buf := by
  induction extra with
  | zero => rfl
  | succ extra ih =>
    rw [← ih]
    exact detect_loop_fuel m buf _ (buf.length + 1 + extra) 0 0 _ (by omega)

theorem detect_emit_eq (scores : List Int) (total : Rat) (npat max_out : Nat) :
    detect_emit scores total npat max_out =
      (((List.range npat).filter (fun i => decide (0 < scores.getD i 0))).take max_out).map
        (detect_guess scores total) := by
  unfold detect_emit
  induction npat with
  | zero => simp
  | succ n ih =>
    rw [List.range_succ, List.foldl_append, ih, List.filter_append]
    simp only [List.foldl_cons, List.foldl_nil, List.length_map, List.length_take, gt_iff_lt]
    by_cases hpos : 0 < scores.getD n 0
    · by_cases hroom : ((List.range n).filter (fun i => decide (0 < scores.getD i 0))).length
          < max_out
      · have hmin : min max_out
            ((List.range n).filter (fun i => decide (0 < scores.getD i 0))).length < max_out := by
          omega
        rw [if_pos ⟨hmin, hpos⟩]
        simp only [List.filter_cons, hpos, decide_True, if_true, List.filter_nil]
        rw [List.take_append_eq_append_take, List.take_of_length_le (le_of_lt hroom)]
        have hk : max_out - ((List.range n).filter
            (fun i => decide (0 < scores.getD i 0))).length = (max_out - ((List.range n).filter
            (fun i => decide (0 < scores.getD i 0))).length - 1) + 1 := by omega
        rw [hk, List.take_succ_cons, List.take_nil, List.map_append]
        rfl
      · have hmin : ¬ min max_out
            ((List.range n).filter (fun i => decide (0 < scores.getD i 0))).length < max_out := by
          omega
        rw [if_neg (fun hc => hmin hc.1)]
        rw [List.take_append_of_le_length (by omega)]
    · rw [if_neg (fun hc => hpos hc.2)]
      simp only [List.filter_cons, hpos, decide_False, List.filter_nil, List.append_nil]
      simp

/-- C20, as stated, fails: for a buffer with one line of 32 hex digits and two
lines of 64 hex digits and `max_out = 2` (the call of `build_job_spec`), the
guesses written are MD5 with confidence 1/5 and then SHA256 with confidence
2/5: the confidence increases along the list and `out[0]` is not a pattern with
the highest match count. -/
theorem C20_guesses_not_ranked :
    detect_scores hex_match_regex sample_hash_lines = [1, 0, 2, 0, 2, 0, 0, 0] ∧
    jug_auto_detect_buffer hex_match_regex sample_hash_lines 2 =
      [⟨.HASH_MD5, 1 / 5⟩, ⟨.HASH_SHA256, 2 / 5⟩] ∧
    ((1 : Rat) / 5 < 2 / 5) := by
  have hs : detect_scores hex_match_regex sample_hash_lines = [1, 0, 2, 0, 2, 0, 0, 0] := by
    decide
  refine ⟨hs, ?_, by norm_num⟩
  unfold jug_auto_detect_buffer
  simp only [hs, detect_emit_eq]
  have ht : detect_total [1, 0, 2, 0, 2, 0, 0, 0] hash_patterns.length = 5 := by
    simp [detect_total, hash_patterns, List.range_succ]
  rw [ht]
  have hf : ((List.range hash_patterns.length).filter
      (fun i => decide (0 < ([1, 0, 2, 0, 2, 0, 0, 0] : List Int).getD i 0))).take 2 = [0, 2] := by
    decide
  rw [hf]
  simp [detect_guess, hash_pattern_at, hash_patterns]

/-- C20, amended: the guesses written by `jug_auto_detect_buffer` are in pattern
declaration order, not sorted by confidence: they are the patterns with a
positive match count, in the order of the table, cut at `max_out`; so `out[0]`
is the first declared pattern that matched a line. The scores are those of the
sampling loop run to its end, whatever bound above `len + 1` is given to it. -/
theorem C20_guesses_in_declaration_order (match_regex : List Nat → String → Bool)
    (buf : List Nat) (max_out : Nat) :
    jug_auto_detect_buffer match_regex buf max_out =
      (((List.range hash_patterns.length).filter
          (fun i => decide (0 < (detect_scores match_regex buf).getD i 0))).take max_out).map
        (detect_guess (detect_scores match_regex buf)
          (detect_total (detect_scores match_regex buf) hash_patterns.length)) ∧
    (∀ extra, detect_loop match_regex buf hash_patterns.length (buf.length + 1 + extra) 0 0
      (List.replicate MAX_HASH_TYPES 0) = detect_scores match_regex buf) := by
  refine ⟨?_, detect_scores_fuel match_regex buf⟩
  unfold jug_auto_detect_buffer
  exact detect_emit_eq _ _ _ _

/-! ### Device mask -/

theorem strstr_found_iff (s needle : List Nat) :
    strstr_found s needle = true ↔ needle <:+: s := by
  unfold strstr_found
  rw [List.any_eq_true]
  constructor
  · rintro ⟨i, _, hi⟩
    rw [List.isPrefixOf_iff_prefix] at hi
    obtain ⟨b, hb⟩ := hi
    exact ⟨s.take i, b, by rw [List.append_assoc, hb, List.take_append_drop]⟩
  · rintro ⟨a, b, hab⟩
    refine ⟨a.length, ?_, ?_⟩
    · rw [List.mem_range, ← hab]
      simp only [List.length_append]
      omega
    · rw [List.isPrefixOf_iff_prefix, ← hab, List.append_assoc, List.drop_left]
      exact List.prefix_append _ _

theorem parse_device_mask_cases (c g f : Bool) :
    ((if f then (if g then (if c then 0 ||| 1 else 0) ||| 2 else (if c then 0 ||| 1 else 0)) ||| 4
        else (if g then (if c then 0 ||| 1 else 0) ||| 2 else (if c then 0 ||| 1 else 0))) ≤ 7) ∧
    (Nat.testBit (if f then (if g then (if c then 0 ||| 1 else 0) ||| 2 else (if c then 0 ||| 1 else 0)) ||| 4
        else (if g then (if c then 0 ||| 1 else 0) ||| 2 else (if c then 0 ||| 1 else 0))) 0 = c) ∧
    (Nat.testBit (if f then (if g then (if c then 0 ||| 1 else 0) ||| 2 else (if c then 0 ||| 1 else 0)) ||| 4
        else (if g then (if c then 0 ||| 1 else 0) ||| 2 else (if c then 0 ||| 1 else 0))) 1 = g) ∧
    (Nat.testBit (if f then (if g then (if c then 0 ||| 1 else 0) ||| 2 else (if c then 0 ||| 1 else 0)) ||| 4
        else (if g then (if c then 0 ||| 1 else 0) ||| 2 else (if c then 0 ||| 1 else 0))) 2 = f) := by
  cases c <;> cases g <;> cases f <;> decide

theorem merge_config_device_mask (g : jug_global_opts_t) :
    (merge_config g).device_mask = if g.device_mask = 0 then 1 else g.device_mask := by
  unfold merge_config
  by_cases h1 : g.config_path = none <;> by_cases h2 : g.auth_path = none <;>
    by_cases h3 : g.resume_path = none <;> by_cases h4 : g.device_mask = 0 <;>
    simp [h1, h2, h3, h4]

/-- C22: for every string `s`, `parse_device_mask(s)` is a value in `0..7` whose
bit 0 is set if and only if `s` contains `"cpu"`, bit 1 if and only if it
contains `"gpu"` and bit 2 if and only if it contains `"fpga"`; after
`merge_config` the device mask is never 0, a zero mask becoming 1 (CPU). -/
theorem C22_device_mask (s : List Nat) (g : jug_global_opts_t) :
    parse_device_mask s ≤ 7 ∧
    ((parse_device_mask s).testBit 0 = true ↔ str_cpu <:+: s) ∧
    ((parse_device_mask s).testBit 1 = true ↔ str_gpu <:+: s) ∧
    ((parse_device_mask s).testBit 2 = true ↔ str_fpga <:+: s) ∧
    (merge_config g).device_mask ≠ 0 ∧
    (g.device_mask = 0 → (merge_config g).device_mask = 1) ∧
    (merge_config { g with device_mask := parse_device_mask s }).device_mask ≠ 0 := by
  obtain ⟨h7, h0, h1, h2⟩ := parse_device_mask_cases (strstr_found s str_cpu)
    (strstr_found s str_gpu) (strstr_found s str_fpga)
  have hm : ∀ g : jug_global_opts_t, (merge_config g).device_mask ≠ 0 := by
    intro g
    rw [merge_config_device_mask]
    split
    · exact Nat.one_ne_zero
    · assumption
  refine ⟨h7, ?_, ?_, ?_, hm g, ?_, hm _⟩
  · rw [← strstr_found_iff]
    exact Eq.congr_left h0
  · rw [← strstr_found_iff]
    exact Eq.congr_left h1
  · rw [← strstr_found_iff]
    exact Eq.congr_left h2
  · intro hz
    rw [merge_config_device_mask, if_pos hz]

/-- C22, at the argument `"cpu,fpga"` of `--devices` (mask 5) and the zeroed options. -/
theorem C22_device_mask_witness :
    parse_device_mask [99, 112, 117, 44, 102, 112, 103, 97] = 5 ∧
    (merge_config zero_opts).device_mask = 1 :=
  ⟨by decide, (C22_device_mask [] zero_opts).2.2.2.2.2.1 rfl⟩


/-! ### The loop iteration and its checkpoint -/

theorem scheduler_thread_tick_eq (s : scheduler) (now : Int) :
    scheduler_thread_tick s now =
      if now - s.last_checkpoint ≥ CHECKPOINT_INTERVAL then
        ({ s with task_count := 0, last_checkpoint := now },
         some { path := "scheduler.chkpt", count := 0, records := [] })
      else ({ s with task_count := 0 }, none) := by
  unfold scheduler_thread_tick scheduler_do_checkpoint
  simp only [Int.toNat_zero, List.take_zero]

/-- C23: in one loop iteration that reads the time `now`, a checkpoint is
written, to the path `"scheduler.chkpt"`, and `last_checkpoint` becomes `now`,
if and only if `now - last_checkpoint >= 5`; otherwise no checkpoint is written
and `last_checkpoint` is unchanged. -/
theorem C23_periodic_checkpoint (s : scheduler) (now : Int) :
    (((scheduler_thread_tick s now).2).isSome = true ↔ now - s.last_checkpoint ≥ 5) ∧
    (now - s.last_checkpoint ≥ 5 →
      ((scheduler_thread_tick s now).2).map (fun w => w.path) = some "scheduler.chkpt" ∧
      (scheduler_thread_tick s now).1.last_checkpoint = now) ∧
    (¬ now - s.last_checkpoint ≥ 5 →
      (scheduler_thread_tick s now).2 = none ∧
      (scheduler_thread_tick s now).1.last_checkpoint = s.last_checkpoint) := by
  rw [scheduler_thread_tick_eq]
  have hci : CHECKPOINT_INTERVAL = 5 := rfl
  rw [hci]
  by_cases h : now - s.last_checkpoint ≥ 5
  · rw [if_pos h]
    exact ⟨⟨fun _ => h, fun _ => rfl⟩, fun _ => ⟨rfl, rfl⟩, fun hn => absurd h hn⟩
  · rw [if_neg h]
    refine ⟨⟨fun hs => ?_, fun hc => absurd hc h⟩, fun hc => absurd hc h, fun _ => ⟨rfl, rfl⟩⟩
    exact absurd hs (by simp)

/-- C23, at a scheduler initialised at time 100: the iteration at time 105
writes a checkpoint, the iteration at time 104 does not. -/
theorem C23_periodic_checkpoint_witness :
    (scheduler_thread_tick (scheduler_init 100) 105).1.last_checkpoint = 105 ∧
    (scheduler_thread_tick (scheduler_init 100) 104).2 = none :=
  ⟨((C23_periodic_checkpoint (scheduler_init 100) 105).2.1 (by decide)).2,
   ((C23_periodic_checkpoint (scheduler_init 100) 104).2.2 (by decide)).1⟩

/-- C26: in one loop iteration, the checkpoint the loop writes, if it writes
one, is taken after `task_count` was set to 0: it holds the count 0 and no task
record (the four bytes of the `int` 0), whatever tasks were queued when the
iteration began. -/
theorem C26_loop_checkpoint_is_empty (task_image : sched_task_t → List Nat) (s : scheduler)
    (now : Int) (w : checkpoint_write) (hw : (scheduler_thread_tick s now).2 = some w) :
    w.count = 0 ∧ w.records = [] ∧ checkpoint_bytes task_image w = [0, 0, 0, 0] := by
  rw [scheduler_thread_tick_eq] at hw
  by_cases h : now - s.last_checkpoint ≥ CHECKPOINT_INTERVAL
  · rw [if_pos h] at hw
    have e : w = { path := "scheduler.chkpt", count := 0, records := [] } :=
      (Option.some.inj hw).symm
    subst e
    exact ⟨rfl, rfl, rfl⟩
  · rw [if_neg h] at hw
    exact absurd hw (by simp)

/-- C26, at a scheduler holding one task, initialised at time 0, in the
iteration at time 9: the checkpoint written holds no task. -/
theorem C26_loop_checkpoint_is_empty_witness :
    scheduler_queue (scheduler_submit (scheduler_init 0) extra_task) = [extra_task] ∧
    (scheduler_thread_tick (scheduler_submit (scheduler_init 0) extra_task) 9).2 =
      some { path := "scheduler.chkpt", count := 0, records := [] } ∧
    checkpoint_bytes lp64_task_image
      { path := "scheduler.chkpt", count := 0, records := [] } = [0, 0, 0, 0] :=
  ⟨by
    rw [(scheduler_submit_queue _ _ (sched_wf_init 0) (by decide)).2, scheduler_queue_init]
    rfl,
   by
    rw [scheduler_thread_tick_eq]
    rfl,
   (C26_loop_checkpoint_is_empty lp64_task_image (scheduler_submit (scheduler_init 0) extra_task)
    9 { path := "scheduler.chkpt", count := 0, records := [] } (by
      rw [scheduler_thread_tick_eq]
      rfl)).2.2⟩

/-! ### Bcrypt buffer bounds -/

/-- C24 (the code does not meet it): for an input of 89 bytes, 16 of salt and
73 of password, `bcrypt_cpu_update` sets `password_len = 73` and copies 73
bytes into the 72-byte `password` field; `salt_len` is 16. -/
theorem C24_password_overflow :
    (bcrypt_cpu_update bcrypt_cpu_create (List.replicate 89 65)).password_len = 73 ∧
    (bcrypt_cpu_update bcrypt_cpu_create (List.replicate 89 65)).password.length = 73 ∧
    (bcrypt_cpu_update bcrypt_cpu_create (List.replicate 89 65)).salt_len = 16 ∧
    bcrypt_cpu_create.password.length = 72 ∧
    ¬ (bcrypt_cpu_update bcrypt_cpu_create (List.replicate 89 65)).password_len ≤ 72 := by
  decide


/-! ### MD5 context invariant -/

theorem md5_updates_bitcount_lt (Ms : List (List Nat)) (ctx : md5_simd_ctx)
    (h : ctx.bitcount < 18446744073709551616) :
    (Ms.foldl md5_simd_update ctx).bitcount < 18446744073709551616 := by
  induction Ms generalizing ctx with
  | nil => exact h
  | cons D Ms ih =>
    rw [List.foldl_cons]
    apply ih
    rw [md5_simd_update_bitcount]
    exact Nat.mod_lt _ (by decide)

/-- C25: after any sequence of `md5_simd_update` calls on a context from
`md5_simd_create`, with `n` the total number of bytes fed: `buffer_len < 64`,
`buffer_len = n mod 64`, `bitcount = 8 * n mod 2^64`, the first `buffer_len`
bytes of the buffer are the last `buffer_len` bytes fed, and the chaining state
is the block transform of the code folded over the first `n / 64` blocks of 64
bytes of the input. -/
theorem C25_md5_context_invariant (Ms : List (List Nat)) :
    (Ms.foldl md5_simd_update md5_simd_create).buffer_len < 64 ∧
    (Ms.foldl md5_simd_update md5_simd_create).buffer_len = Ms.flatten.length % 64 ∧
    (Ms.foldl md5_simd_update md5_simd_create).bitcount =
      (8 * Ms.flatten.length) % 18446744073709551616 ∧
    (Ms.foldl md5_simd_update md5_simd_create).buffer.take
        (Ms.foldl md5_simd_update md5_simd_create).buffer_len =
      Ms.flatten.drop
        (Ms.flatten.length - (Ms.foldl md5_simd_update md5_simd_create).buffer_len) ∧
    (Ms.foldl md5_simd_update md5_simd_create).state =
      (md5_blocks (Ms.flatten.length / 64) Ms.flatten).foldl md5_scalar_block
        md5_simd_create.state := by
  obtain ⟨i0, s0, p0, l0, b0⟩ := md5_updates_spec Ms md5_simd_create md5_inv_create
  rw [md5_pending_create, List.nil_append] at s0 p0 l0
  have hlt := md5_updates_bitcount_lt Ms md5_simd_create (by decide)
  refine ⟨i0.1, l0, ?_, ?_, s0⟩
  · have hb : u64 (Ms.foldl md5_simd_update md5_simd_create).bitcount =
        (Ms.foldl md5_simd_update md5_simd_create).bitcount := Nat.mod_eq_of_lt hlt
    rw [← hb, b0]
    show (0 + 8 * Ms.flatten.length) % 18446744073709551616 = _
    rw [Nat.zero_add]
  · have hp : (Ms.foldl md5_simd_update md5_simd_create).buffer.take
        (Ms.foldl md5_simd_update md5_simd_create).buffer_len = tail64 Ms.flatten := p0
    rw [hp, l0]
    unfold tail64
    congr 1
    omega


/-! ### Classifier confidence -/

/-- What `tally_line` does to each score: it adds one where the pattern matches
the line. -/
theorem tally_line_spec (m : List Nat → String → Bool) (line : List Nat) (sc : List Int)
    (npat i : Nat) :
    (tally_line m line sc npat).length = sc.length ∧
    (tally_line m line sc npat).getD i 0 =
      sc.getD i 0 +
        (if i < npat ∧ i < sc.length ∧ m line (hash_pattern_at i).pattern = true then 1 else 0) := by
  unfold tally_line
  induction npat with
  | zero => simp
  | succ n ih =>
    obtain ⟨ihl, ihg⟩ := ih
    rw [List.range_succ, List.foldl_append]
    simp only [List.foldl_cons, List.foldl_nil]
    by_cases hm : m line (hash_pattern_at n).pattern = true
    · rw [if_pos hm]
      refine ⟨by rw [List.length_set, ihl], ?_⟩
      rw [List.getD_eq_getElem?_getD, List.getElem?_set]
      by_cases hin : n = i
      · subst hin
        rw [if_pos rfl]
        by_cases hlen : n < sc.length
        · rw [if_pos (by rw [ihl]; exact hlen)]
          have h1 : ¬ (n < n ∧ n < sc.length ∧ m line (hash_pattern_at n).pattern = true) :=
            fun hc => absurd hc.1 (lt_irrefl n)
          rw [if_neg h1, Int.add_zero] at ihg
          rw [if_pos ⟨Nat.lt_succ_self n, hlen, hm⟩, ← ihg]
          rfl
        · rw [if_neg (by rw [ihl]; exact hlen)]
          have h2 : ¬ (n < n + 1 ∧ n < sc.length ∧ m line (hash_pattern_at n).pattern = true) :=
            fun hc => hlen hc.2.1
          rw [if_neg h2, Int.add_zero, List.getD_eq_getElem?_getD,
            List.getElem?_eq_none (not_lt.mp hlen)]
      · rw [if_neg hin, ← List.getD_eq_getElem?_getD, ihg]
        have hiff : (i < n ∧ i < sc.length ∧ m line (hash_pattern_at i).pattern = true) ↔
            (i < n + 1 ∧ i < sc.length ∧ m line (hash_pattern_at i).pattern = true) := by
          constructor
          · exact fun hc => ⟨by omega, hc.2⟩
          · exact fun hc => ⟨by omega, hc.2⟩
        simp only [hiff]
    · rw [if_neg hm]
      refine ⟨ihl, ?_⟩
      rw [ihg]
      by_cases hin : n = i
      · subst hin
        have h1 : ¬ (n < n ∧ n < sc.length ∧ m line (hash_pattern_at n).pattern = true) :=
          fun hc => absurd hc.1 (lt_irrefl n)
        have h2 : ¬ (n < n + 1 ∧ n < sc.length ∧ m line (hash_pattern_at n).pattern = true) :=
          fun hc => hm hc.2.2
        rw [if_neg h1, if_neg h2]
      · have hiff : (i < n ∧ i < sc.length ∧ m line (hash_pattern_at i).pattern = true) ↔
            (i < n + 1 ∧ i < sc.length ∧ m line (hash_pattern_at i).pattern = true) := by
          constructor
          · exact fun hc => ⟨by omega, hc.2⟩
          · exact fun hc => ⟨by omega, hc.2⟩
        simp only [hiff]

theorem tally_line_nonneg (m : List Nat → String → Bool) (line : List Nat) (sc : List Int)
    (npat : Nat) (h : ∀ i, 0 ≤ sc.getD i 0) (i : Nat) :
    0 ≤ (tally_line m line sc npat).getD i 0 := by
  rw [(tally_line_spec m line sc npat i).2]
  have := h i
  split <;> omega

theorem detect_loop_nonneg (m : List Nat → String → Bool) (buf : List Nat) (npat fuel : Nat)
    (p lines : Nat) (sc : List Int) (h : ∀ i, 0 ≤ sc.getD i 0) (i : Nat) :
    0 ≤ (detect_loop m buf npat fuel p lines sc).getD i 0 := by
  induction fuel generalizing p lines sc with
  | zero => exact h i
  | succ fuel ih =>
    rw [detect_loop]
    split
    · simp only []
      split
      · exact ih _ _ _ (tally_line_nonneg m _ sc npat h)
      · exact ih _ _ _ h
    · exact h i

theorem detect_scores_nonneg (m : List Nat → String → Bool) (buf : List Nat) (i : Nat) :
    0 ≤ (detect_scores m buf).getD i 0 := by
  unfold detect_scores
  apply detect_loop_nonneg
  intro j
  rw [List.getD_eq_getElem?_getD, List.getElem?_replicate]
  split <;> simp

theorem score_le_total (sc : List Int) (npat i : Nat) (h : ∀ j, 0 ≤ sc.getD j 0)
    (hi : i < npat) :
    sc.getD i 0 ≤ ((List.range npat).map (fun j => sc.getD j 0)).sum := by
  apply List.single_le_sum
  · intro x hx
    obtain ⟨j, _, hj⟩ := List.mem_map.mp hx
    rw [← hj]
    exact h j
  · exact List.mem_map.mpr ⟨i, List.mem_range.mpr hi, rfl⟩

/-- C21: for every buffer, the number of guesses written by
`jug_auto_detect_buffer` is at most `max_out`, and every guess written belongs
to a pattern with a positive match count; its confidence is that match count
divided by the sum of the match counts of all patterns, as an exact quotient,
and lies between 0 and 1. The match counts are the scores tallied by the
sampling loop. -/
theorem C21_confidence_is_share_of_matches (match_regex : List Nat → String → Bool)
    (buf : List Nat) (max_out : Nat) :
    (jug_auto_detect_buffer match_regex buf max_out).length ≤ max_out ∧
    ∀ g ∈ jug_auto_detect_buffer match_regex buf max_out,
      ∃ i, i < hash_patterns.length ∧
        0 < (detect_scores match_regex buf).getD i 0 ∧
        g.type = (hash_pattern_at i).type ∧
        g.confidence = ((detect_scores match_regex buf).getD i 0 : Rat) /
          ((((List.range hash_patterns.length).map
            (fun j => (detect_scores match_regex buf).getD j 0)).sum : Int) : Rat) ∧
        0 ≤ g.confidence ∧ g.confidence ≤ 1 := by
  have hout : jug_auto_detect_buffer match_regex buf max_out =
      (((List.range hash_patterns.length).filter
          (fun i => decide (0 < (detect_scores match_regex buf).getD i 0))).take max_out).map
        (detect_guess (detect_scores match_regex buf)
          (detect_total (detect_scores match_regex buf) hash_patterns.length)) := by
    unfold jug_auto_detect_buffer
    exact detect_emit_eq _ _ _ _
  rw [hout]
  constructor
  · rw [List.length_map, List.length_take]
    exact Nat.min_le_left _ _
  · intro g hg
    obtain ⟨i, hi, hgi⟩ := List.mem_map.mp hg
    have hi2 := List.mem_filter.mp (List.mem_of_mem_take hi)
    have hlt : i < hash_patterns.length := List.mem_range.mp hi2.1
    have hpos : 0 < (detect_scores match_regex buf).getD i 0 := of_decide_eq_true hi2.2
    have hle := score_le_total (detect_scores match_regex buf) hash_patterns.length i
      (detect_scores_nonneg match_regex buf) hlt
    have hposq : (0 : Rat) < ((detect_scores match_regex buf).getD i 0 : Rat) := by
      exact_mod_cast hpos
    have hleq : ((detect_scores match_regex buf).getD i 0 : Rat) ≤
        detect_total (detect_scores match_regex buf) hash_patterns.length := by
      unfold detect_total
      exact_mod_cast hle
    have htot : (0 : Rat) < detect_total (detect_scores match_regex buf) hash_patterns.length :=
      lt_of_lt_of_le hposq hleq
    have hconf : g.confidence = ((detect_scores match_regex buf).getD i 0 : Rat) /
        detect_total (detect_scores match_regex buf) hash_patterns.length := by
      rw [← hgi]
      unfold detect_guess
      simp only [gt_iff_lt, htot, if_true]
    refine ⟨i, hlt, hpos, ?_, hconf, ?_, ?_⟩
    · rw [← hgi]
      rfl
    · rw [hconf]
      exact div_nonneg (le_of_lt hposq) (le_of_lt htot)
    · rw [hconf]
      exact (div_le_one htot).mpr hleq

end Juggernaut
